import Mathlib

/-!
Verification development for the `gg_obs` broadcast-overlay helper.

The repository consists of three Python modules:
* `bracket_handler.py` — Challonge bracket client (`get_participants`,
  `get_matches`, `get_bracket_text_sources`),
* `match_scene_handler.py` — roster store (`load_roster`, `Team`) and the
  OBS source synchronizer (`set_browser_source_url`, `set_text_source`,
  `apply_team_to_sources`, `execute_transition`),
* `main.py` — host glue (out of scope of the claims).

The shallow embedding below models Python JSON values with the inductive
type `Json`, with the convention that Python `None` is represented by
`Json.null` (the JSON decoder maps `null` to `None`, and `dict.get` returns
`None` for a missing key, so the two coincide in the source).  Python dicts
are modelled as insertion-ordered association lists (`dinsert` reproduces
Python dict assignment: overwrite in place, else append).  Fallible Python
expressions are modelled in the `Except PyErr` monad; an `Except.error`
models an exception propagating out of the translated code.
-/

namespace GgObs

/-- A decoded JSON value / Python object.  `null` also stands for Python
`None` (see module comment). -/
inductive Json where
  | null
  | bool (b : Bool)
  | num (n : Int)
  | str (s : String)
  | arr (xs : List Json)
  | obj (fields : List (String × Json))

/-- Python exception kinds raised by the code under study. -/
inductive PyErr where
  | keyError
  | typeError
  | valueError
  | indexError
  | attributeError
deriving DecidableEq

/-- Python truthiness (`bool(x)`) for the modelled value types. -/
def Json.truthy : Json → Bool
  | .null => false
  | .bool b => b
  | .num n => n != 0
  | .str s => !s.isEmpty
  | .arr xs => !xs.isEmpty
  | .obj fs => !fs.isEmpty

/-- Is this Python `None` (i.e. JSON null)? -/
def Json.isNull : Json → Bool
  | .null => true
  | _ => false

/-- Python `str(x)` for scalar values, as used by f-string interpolation in
the source.  The container cases are not exercised by the source on
schema-conforming data (roster/participant values are scalars), so their
Python `repr`-style rendering is not reproduced. -/
def Json.pyStr : Json → String
  | .null => "None"
  | .bool true => "True"
  | .bool false => "False"
  | .num n => toString n
  | .str s => s
  | .arr _ => ""
  | .obj _ => ""

/-- Python `x == k` where `k` is a string literal (used by `in` on lists). -/
def Json.isStrEq (j : Json) (k : String) : Bool :=
  match j with
  | .str s => s == k
  | _ => false

/-- Ordered-dict lookup: value of the first (hence only) binding of `k`. -/
def dget? {α β : Type} [DecidableEq α] (l : List (α × β)) (k : α) : Option β :=
  (l.find? (fun e => e.1 = k)).map (·.2)

/-- Python dict assignment `d[k] = v`: overwrite in place keeping the
original insertion position, else append at the end. -/
def dinsert {α β : Type} [DecidableEq α] (k : α) (v : β) : List (α × β) → List (α × β)
  | [] => [(k, v)]
  | e :: rest => if e.1 = k then (k, v) :: rest else e :: dinsert k v rest

/-- Lookup in a JSON object's field list. -/
def olookup (fs : List (String × Json)) (k : String) : Option Json :=
  dget? fs k

/-- Python subscript `j[k]` with a string key: `KeyError` when the key is
missing, `TypeError` when `j` is not a dict. -/
def pySubscript (j : Json) (k : String) : Except PyErr Json :=
  match j with
  | .obj fs =>
    match olookup fs k with
    | some v => .ok v
    | none => .error .keyError
  | _ => .error .typeError

/-- Python `j.get(k)`: `None` for a missing key; `AttributeError` when `j`
is not a dict. -/
def pyDictGet (j : Json) (k : String) : Except PyErr Json :=
  match j with
  | .obj fs => .ok ((olookup fs k).getD .null)
  | _ => .error .attributeError

/-- Python `j.get(k, d)`: the stored value when the key is present (even if
it is `None`), else `d`; `AttributeError` when `j` is not a dict. -/
def pyDictGetD (j : Json) (k : String) (d : Json) : Except PyErr Json :=
  match j with
  | .obj fs => .ok ((olookup fs k).getD d)
  | _ => .error .attributeError

/-- Python `j.values()` for a dict, in declared (insertion) order. -/
def pyValues (j : Json) : Except PyErr (List Json) :=
  match j with
  | .obj fs => .ok (fs.map (·.2))
  | _ => .error .attributeError

/-- Python iteration `for x in j`: list elements, dict keys, or the
characters of a string; `TypeError` otherwise. -/
def pyIter (j : Json) : Except PyErr (List Json) :=
  match j with
  | .arr xs => .ok xs
  | .obj fs => .ok (fs.map (fun e => Json.str e.1))
  | .str s => .ok (s.data.map (fun c => Json.str c.toString))
  | _ => .error .typeError

/-- Python `len(j)`; `TypeError` for non-sized values (notably `None`). -/
def pyLen (j : Json) : Except PyErr Nat :=
  match j with
  | .arr xs => .ok xs.length
  | .obj fs => .ok fs.length
  | .str s => .ok s.length
  | _ => .error .typeError

/-- Python `j[i]` with a non-negative integer index. -/
def pyIndex (j : Json) (i : Nat) : Except PyErr Json :=
  match j with
  | .arr xs =>
    match xs.get? i with
    | some v => .ok v
    | none => .error .indexError
  | .str s =>
    match s.data.get? i with
    | some c => .ok (Json.str c.toString)
    | none => .error .indexError
  | _ => .error .typeError

/-- Python `k in j` for a string literal `k`: key membership for dicts,
element membership for lists, substring test for strings, `TypeError`
otherwise (e.g. `"data" in 5`). -/
def pyContains (j : Json) (k : String) : Except PyErr Bool :=
  match j with
  | .obj fs => .ok (fs.any (fun e => e.1 == k))
  | .arr xs => .ok (xs.any (fun x => x.isStrEq k))
  | .str s => .ok (decide ((s.splitOn k).length > 1))
  | _ => .error .typeError

/-- Python `int(x)` restricted to the value shapes the Challonge payloads
can carry: numbers pass through, booleans coerce, numeric strings parse
(`ValueError` otherwise), anything else is a `TypeError`. -/
def pyInt (j : Json) : Except PyErr Int :=
  match j with
  | .num n => .ok n
  | .bool b => .ok (if b then 1 else 0)
  | .str s =>
    match s.toInt? with
    | some n => .ok n
    | none => .error .valueError
  | _ => .error .typeError

/-- Python `j == k` for an integer dict key `k` (`True == 1` included). -/
def jsonEqInt (j : Json) (k : Int) : Bool :=
  match j with
  | .num n => n == k
  | .bool b => (if b then (1 : Int) else 0) == k
  | _ => false

/-! ## Bracket client (`bracket_handler.py`) -/

/-- Outcome of the HTTP round trip performed by `_api_request`, i.e. the
environment of one fetch: either a decoded JSON body, or one of the four
failure categories the source catches (`urllib.error.HTTPError`,
`urllib.error.URLError`, `json.JSONDecodeError`, any other exception). -/
inductive ApiResponse where
  | success (body : Json)
  | httpError (code : Int) (reason : String) (body : Option String)
  | urlError (reason : String)
  | decodeError (msg : String)
  | otherError (msg : String)

/-- Did the round trip fail (any non-success category)? -/
def ApiResponse.isFailure : ApiResponse → Bool
  | .success _ => false
  | _ => true

/-- Module-level mutable state of `bracket_handler.py` (`API_KEY`,
`TOURNAMENT_ID`, `PARTICIPANTS`, `MATCHES`), plus the accumulated
`print` log.  Note the source annotates `MATCHES` as mapping to
participant-id pairs, but actually stores resolved display names
(`PARTICIPANTS.get(...)`), hence the `Json × Json` value type (a side is
`Json.null` when undetermined). -/
structure BracketState where
  API_KEY : String
  TOURNAMENT_ID : String
  PARTICIPANTS : List (Int × Json)
  MATCHES : List (Int × (Json × Json))
  log : List String

/-- Append log lines to a bracket state. -/
def BracketState.addLogs (st : BracketState) (ls : List String) : BracketState :=
  { st with log := st.log ++ ls }

/-- `_api_request` (bracket_handler.py:31-84): returns the parsed JSON
response, or `none` after logging on any error; the empty-API-key guard
short-circuits before any request. -/
def api_request (api_key : String) (resp : ApiResponse) : Option Json × List String :=
  if api_key.isEmpty then (none, ["[Challonge] API key not set"])
  else
    match resp with
    | .success j => (some j, [])
    | .httpError code reason body =>
      (none, ["[Challonge] HTTP Error " ++ toString code ++ ": " ++ reason] ++
        (match body with
         | some b => ["[Challonge] Error details: " ++ b]
         | none => []))
    | .urlError reason => (none, ["[Challonge] URL Error: " ++ reason])
    | .decodeError msg => (none, ["[Challonge] JSON decode error: " ++ msg])
    | .otherError msg => (none, ["[Challonge] Unexpected error: " ++ msg])

/-- One entry of the dict comprehension in `get_participants`
(bracket_handler.py:102-105): `int(p["id"]) : p["attributes"]["name"]`,
with Python evaluation order (key before value). -/
def participant_entry (p : Json) : Except PyErr (Int × Json) := do
  let idj ← pySubscript p "id"
  let id ← pyInt idj
  let attrs ← pySubscript p "attributes"
  let name ← pySubscript attrs "name"
  pure (id, name)

/-- The dict comprehension of `get_participants`: built in full (the whole
comprehension is evaluated before the assignment to `PARTICIPANTS`). -/
def build_participants (recs : List Json) : Except PyErr (List (Int × Json)) :=
  recs.foldlM (fun acc p => do
    let e ← participant_entry p
    pure (dinsert e.1 e.2 acc)) []

/-- `get_participants` (bracket_handler.py:91-106).  The second component
is the exception escaping the function, if any. -/
def get_participants (st : BracketState) (resp : ApiResponse) :
    BracketState × Option PyErr :=
  if st.TOURNAMENT_ID.isEmpty then
    (st.addLogs ["[Challonge] Tournament ID not set"], none)
  else
    let r := api_request st.API_KEY resp
    let st := st.addLogs r.2
    match r.1 with
    | none => (st, none)
    | some j =>
      if j.truthy then
        match pyContains j "data" with
        | .error e => (st, some e)
        | .ok false => (st, none)
        | .ok true =>
          match pySubscript j "data" with
          | .error e => (st, some e)
          | .ok data =>
            match pyIter data with
            | .error e => (st, some e)
            | .ok recs =>
              match build_participants recs with
              | .error e => (st, some e)
              | .ok m =>
                ({ st with
                    PARTICIPANTS := m,
                    log := st.log ++
                      ["[Challonge] Loaded " ++ toString m.length ++ " participants"] },
                  none)
      else (st, none)

/-- Is this Python value hashable?  Lists and dicts are not; using one as
a dict key raises `TypeError: unhashable type`. -/
def pyHashable : Json → Bool
  | .arr _ => false
  | .obj _ => false
  | _ => true

/-- The value `PARTICIPANTS.get(x, None)` returns for a hashable key `x`:
the resolved display name, or `None` for an unknown id. -/
def participants_lookup (parts : List (Int × Json)) (idj : Json) : Json :=
  match parts.find? (fun kv => jsonEqInt idj kv.1) with
  | some kv => kv.2
  | none => .null

/-- `PARTICIPANTS.get(x, None)` where `x` is an arbitrary Python value
(possibly `None`): `dict.get` hashes the key first, so an unhashable `x`
(a list or dict) raises `TypeError`; otherwise the resolved display name
or `None`. -/
def participants_get (parts : List (Int × Json)) (idj : Json) :
    Except PyErr Json :=
  match idj with
  | .arr _ => .error .typeError
  | .obj _ => .error .typeError
  | _ => .ok (participants_lookup parts idj)

/-- The two resolved sides of one match record's `attributes`
(bracket_handler.py:127-130): element 0 / element 1 of
`points_by_participant` looked up in the current participants dict. -/
def match_sides (parts : List (Int × Json)) (attrs : Json) :
    Except PyErr (Json × Json) := do
  let points ← pyDictGetD attrs "points_by_participant" (Json.arr [])
  let n ← pyLen points
  let p1_id ←
    if 0 < n then do
      let e ← pyIndex points 0
      pySubscript e "participant_id"
    else pure Json.null
  let p2_id ←
    if 1 < n then do
      let e ← pyIndex points 1
      pySubscript e "participant_id"
    else pure Json.null
  let s1 ← participants_get parts p1_id
  let s2 ← participants_get parts p2_id
  pure (s1, s2)

/-- The body of the `for m in result["data"]` loop of `get_matches`
(bracket_handler.py:122-130) acting on the accumulated `MATCHES` dict.
Records with a missing or `null` `suggested_play_order` are skipped; the
`int(...)` conversion of the play order happens after the right-hand side
tuple is evaluated (Python assignment order). -/
def match_step (parts : List (Int × Json)) (acc : List (Int × (Json × Json)))
    (m : Json) : Except PyErr (List (Int × (Json × Json))) := do
  let attrs ← pySubscript m "attributes"
  let play_order ← pyDictGet attrs "suggested_play_order"
  if play_order.isNull then
    pure acc
  else do
    let sides ← match_sides parts attrs
    let k ← pyInt play_order
    pure (dinsert k sides acc)

/-- The `get_matches` loop, mutating `MATCHES` one record at a time: an
exception partway leaves the partially rebuilt dict in place. -/
def run_match_loop (parts : List (Int × Json)) :
    List Json → List (Int × (Json × Json)) →
    List (Int × (Json × Json)) × Option PyErr
  | [], acc => (acc, none)
  | m :: rest, acc =>
    match match_step parts acc m with
    | .error e => (acc, some e)
    | .ok acc2 => run_match_loop parts rest acc2

/-- `get_matches` (bracket_handler.py:109-132).  Note `MATCHES = {}` runs
before `result["data"]` is subscripted or iterated. -/
def get_matches (st : BracketState) (resp : ApiResponse) :
    BracketState × Option PyErr :=
  if st.TOURNAMENT_ID.isEmpty then
    (st.addLogs ["[Challonge] Tournament ID not set"], none)
  else
    let r := api_request st.API_KEY resp
    let st := st.addLogs r.2
    match r.1 with
    | none => (st, none)
    | some j =>
      if j.truthy then
        match pyContains j "data" with
        | .error e => (st, some e)
        | .ok false => (st, none)
        | .ok true =>
          let st := { st with MATCHES := [] }
          match pySubscript j "data" with
          | .error e => (st, some e)
          | .ok data =>
            match pyIter data with
            | .error e => (st, some e)
            | .ok recs =>
              let r2 := run_match_loop st.PARTICIPANTS recs []
              let st := { st with MATCHES := r2.1 }
              match r2.2 with
              | some e => (st, some e)
              | none =>
                (st.addLogs
                  ["[Challonge] Loaded " ++ toString r2.1.length ++ " matches"],
                  none)
      else (st, none)

/-- `get_bracket_text_sources` (bracket_handler.py:143-159): pure function
of the `MATCHES` dict producing the OBS text-source name/value dict. -/
def get_bracket_text_sources (MATCHES : List (Int × (Json × Json))) :
    List (String × Json) :=
  MATCHES.foldl (fun acc kv =>
    dinsert ("G" ++ toString kv.1 ++ "_T2") kv.2.2
      (dinsert ("G" ++ toString kv.1 ++ "_T1") kv.2.1 acc)) []

/-! ## Roster store (`match_scene_handler.py`, lines 1-54) -/

/-- `Team` (match_scene_handler.py:7-15).  A position tuple is the value
tuple built by `load_roster` from the position's JSON record
(`tuple(record.values())`), in declared order; `none` is Python `None`.
The source annotates the tuples as `tuple[str, str]`, but the constructor
stores whatever `values()` produced, so the model keeps the full list. -/
structure Team where
  name : String
  helm : Option (List Json)
  flex : Option (List Json)
  mc : Option (List Json)
  bilge : Option (List Json)

/-- The roster-file path constant; the actual directory prefix is
irrelevant to the claims, only the logged text uses it. -/
def ROSTER_FILE : String := "roster.json"

/-- Module-level state of the roster store: `TEAM_ROSTER` plus log. -/
structure RosterState where
  TEAM_ROSTER : List (String × Team)
  log : List String

/-- Outcome of `open(ROSTER_FILE)` followed by `json.load`: the file is
missing (`FileNotFoundError`), its text is not valid JSON
(`json.JSONDecodeError`, message attached), or it parses to a value. -/
inductive RosterFile where
  | missing
  | malformed (msg : String)
  | parsed (data : Json)

/-- One position argument of the `Team(...)` call in `load_roster`
(match_scene_handler.py:35-38):
`tuple(team_data[slot].values()) if team_data.get(slot) and
team_data[slot].get("name") else None`. -/
def position_tup (team_data : Json) (slot : String) :
    Except PyErr (Option (List Json)) := do
  let rec0 ← pyDictGet team_data slot
  if rec0.truthy then do
    let namev ← pyDictGet rec0 "name"
    if namev.truthy then do
      let vals ← pyValues rec0
      pure (some vals)
    else pure none
  else pure none

/-- The `Team(...)` constructor call of `load_roster`, with Python keyword
argument evaluation order (helm, mc, flex, bilge). -/
def build_team (team_name : String) (team_data : Json) : Except PyErr Team := do
  let helm ← position_tup team_data "helm"
  let mc ← position_tup team_data "mc"
  let flex ← position_tup team_data "flex"
  let bilge ← position_tup team_data "bilge"
  pure { name := team_name, helm := helm, flex := flex, mc := mc, bilge := bilge }

/-- The `for team_name, team_data in data["teams"].items()` loop:
assignments land in `TEAM_ROSTER` one team at a time, so an exception
partway leaves a partially rebuilt roster. -/
def run_roster_loop :
    List (String × Json) → List (String × Team) →
    List (String × Team) × Option PyErr
  | [], acc => (acc, none)
  | (tn, td) :: rest, acc =>
    match build_team tn td with
    | .error e => (acc, some e)
    | .ok t => run_roster_loop rest (dinsert tn t acc)

/-- `load_roster` (match_scene_handler.py:24-44).  `TEAM_ROSTER.clear()`
runs only after a successful parse, and before `data["teams"]` is
evaluated; `FileNotFoundError` and `json.JSONDecodeError` are caught and
logged, any other exception escapes. -/
def load_roster (st : RosterState) (file : RosterFile) :
    RosterState × Option PyErr :=
  match file with
  | .missing =>
    ({ st with log := st.log ++
        ["[Tournament] roster.json not found at " ++ ROSTER_FILE] }, none)
  | .malformed msg =>
    ({ st with log := st.log ++
        ["[Tournament] Invalid JSON in roster.json: " ++ msg] }, none)
  | .parsed data =>
    let st := { st with TEAM_ROSTER := [] }
    match pySubscript data "teams" with
    | .error e => (st, some e)
    | .ok teams =>
      match teams with
      | .obj items =>
        let r := run_roster_loop items []
        let st := { st with TEAM_ROSTER := r.1 }
        match r.2 with
        | some e => (st, some e)
        | none =>
          ({ st with log := st.log ++
              ["[Tournament] Loaded " ++ toString r.1.length ++
                " teams from roster.json"] }, none)
      | _ => (st, some .attributeError)

/-- `get_team` (match_scene_handler.py:47-49): `TEAM_ROSTER.get(name)`. -/
def get_team (roster : List (String × Team)) (team_name : String) :
    Option Team :=
  dget? roster team_name

/-! ## Source configuration constants (match_scene_handler.py:61-73).
The source names them `..._PREFIX`; they are shortened to `..._PRE` here
(the meaning is unchanged). -/

def T1_NAME_SOURCE : String := "Team 1"

def T2_NAME_SOURCE : String := "Team 2"

def T1_HELM_PRE : String := "T1H -"

def T1_MC_PRE : String := "T1MC -"

def T1_FLEX_PRE : String := "T1F -"

def T1_BILGE_PRE : String := "T1B -"

def T2_HELM_PRE : String := "T2H -"

def T2_MC_PRE : String := "T2MC -"

def T2_FLEX_PRE : String := "T2F -"

def T2_BILGE_PRE : String := "T2B -"

/-! ## Helper functions (match_scene_handler.py:79-101) -/

/-- `build_twitch_url` (match_scene_handler.py:79-87). -/
def build_twitch_url (channel : String) : String :=
  if channel.isEmpty then ""
  else
    "https://player.twitch.tv/?channel=" ++ channel ++
      "&enableExtensions=true&muted=false&parent=twitch.tv" ++
      "&player=popout&quality=480p30&volume=0.69"

/-- `get_twitch_link` (match_scene_handler.py:90-94): `position_tup[1]`,
an `IndexError` when the tuple has fewer than two values. -/
def get_twitch_link (position : Option (List Json)) : Except PyErr Json :=
  match position with
  | none => .ok .null
  | some l =>
    match l.get? 1 with
    | some v => .ok v
    | none => .error .indexError

/-- `get_player_name` (match_scene_handler.py:97-101): `position_tup[0]`. -/
def get_player_name (position : Option (List Json)) : Except PyErr Json :=
  match position with
  | none => .ok .null
  | some l =>
    match l.get? 0 with
    | some v => .ok v
    | none => .error .indexError

/-! ## OBS source manipulation (match_scene_handler.py:107-188)

The presentation surface is modelled as an ordered list of sources; a
source handle is an index into that list.  `obs_enum_sources` enumerates
in list order. -/

/-- One OBS source: its name, and the `url`/`text` settings the script
writes (browser sources use `url`, text sources use `text`). -/
structure Source where
  name : String
  url : String
  text : String

/-- The presentation-surface state plus the accumulated `print` log. -/
structure ObsState where
  sources : List Source
  log : List String

/-- Append one log line. -/
def ObsState.addLog (st : ObsState) (l : String) : ObsState :=
  { st with log := st.log ++ [l] }

/-- Python `name.startswith(pre)`. -/
def pyStartsWith (s pre : String) : Bool :=
  pre.data.isPrefixOf s.data

/-- The predicate of the `find_source_by_prefix` loop
(match_scene_handler.py:115): `name and name.startswith(prefix)`. -/
def matchesName (n pre : String) : Bool :=
  !n.isEmpty && pyStartsWith n pre

/-- `find_source_by_prefix` (match_scene_handler.py:107-120): the name of
the first enumerated source whose (non-empty) name starts with `pre`. -/
def find_source_by_pre (l : List Source) (pre : String) : Option String :=
  (l.find? (fun s => matchesName s.name pre)).map (·.name)

/-- `obs_get_source_by_name`: handle (index) of the first source with the
given exact name. -/
def findIdxByName : List Source → String → Option Nat
  | [], _ => none
  | s :: rest, n =>
    if s.name = n then some 0 else (findIdxByName rest n).map (· + 1)

/-- `obs_source_set_name` on the handle `idx`. -/
def renameAt (l : List Source) (idx : Nat) (n : String) : List Source :=
  match l.get? idx with
  | some s => l.set idx { s with name := n }
  | none => l

/-- `obs_data_set_string(settings, "url", url); obs_source_update` on the
handle `idx`. -/
def setUrlAt (l : List Source) (idx : Nat) (u : String) : List Source :=
  match l.get? idx with
  | some s => l.set idx { s with url := u }
  | none => l

/-- `obs_data_set_string(settings, "text", t); obs_source_update` on the
handle `idx`. -/
def setTextAt (l : List Source) (idx : Nat) (t : String) : List Source :=
  match l.get? idx with
  | some s => l.set idx { s with text := t }
  | none => l

/-- f-string rendering of `find_source_by_prefix`'s result (a string or
`None`). -/
def optNameStr : Option String → String
  | none => "None"
  | some s => s

/-- The new source name computed by `set_browser_source_url`
(match_scene_handler.py:139-143). -/
def bNewName (pre : String) (player_name : Json) : String :=
  if player_name.truthy then pre ++ " " ++ player_name.pyStr else pre

/-- The url computed by `set_browser_source_url`
(match_scene_handler.py:148-154). -/
def bNewUrl (twitch_username : Json) : String :=
  if twitch_username.truthy then build_twitch_url twitch_username.pyStr else ""

/-- The log line for the url update branch. -/
def bUrlLog (new_name : String) (twitch_username : Json) : String :=
  if twitch_username.truthy then
    "[Tournament] Updated " ++ new_name ++ " -> " ++ twitch_username.pyStr
  else "[Tournament] Clearing " ++ new_name

/-- `set_browser_source_url` (match_scene_handler.py:123-160).
`player_name` and `twitch_username` are the Python values produced by
`get_player_name`/`get_twitch_link` (`Json.null` for `None`). -/
def set_browser_source_url (st : ObsState) (pre : String)
    (player_name twitch_username : Json) : ObsState :=
  if pre.isEmpty then st
  else
    let fnd := find_source_by_pre st.sources pre
    let st := st.addLog
      ("[Tournament] Found Source " ++ optNameStr fnd ++ " from " ++ pre)
    match fnd with
    | none => st.addLog ("[Tournament] No source found with prefix: " ++ pre)
    | some source_name =>
      match findIdxByName st.sources source_name with
      | none => st.addLog ("[Tournament] Source not found: " ++ source_name)
      | some idx =>
        let new_name := bNewName pre player_name
        let st := { st with sources := renameAt st.sources idx new_name }
        let st := st.addLog (bUrlLog new_name twitch_username)
        { st with sources := setUrlAt st.sources idx (bNewUrl twitch_username) }

/-- `set_text_source` (match_scene_handler.py:163-178). -/
def set_text_source (st : ObsState) (source_name text : String) : ObsState :=
  if source_name.isEmpty then st
  else
    match findIdxByName st.sources source_name with
    | none => st.addLog ("[Tournament] Text source not found: " ++ source_name)
    | some idx =>
      { sources := setTextAt st.sources idx text,
        log := st.log ++
          ["[Tournament] Updated text " ++ source_name ++ " -> " ++ text] }

/-- `apply_team_to_sources` (match_scene_handler.py:181-188).  Python
evaluates `get_player_name(pos)` then `get_twitch_link(pos)` before each
`set_browser_source_url` call; an `IndexError` there escapes the whole
function. -/
def apply_team_to_sources (st : ObsState) (team : Team)
    (name_source helm_pre mc_pre flex_pre bilge_pre : String) :
    Except PyErr ObsState := do
  let st := set_text_source st name_source team.name
  let pn ← get_player_name team.helm
  let tw ← get_twitch_link team.helm
  let st := set_browser_source_url st helm_pre pn tw
  let pn ← get_player_name team.mc
  let tw ← get_twitch_link team.mc
  let st := set_browser_source_url st mc_pre pn tw
  let pn ← get_player_name team.flex
  let tw ← get_twitch_link team.flex
  let st := set_browser_source_url st flex_pre pn tw
  let pn ← get_player_name team.bilge
  let tw ← get_twitch_link team.bilge
  let st := set_browser_source_url st bilge_pre pn tw
  pure st

/-- `execute_transition` (match_scene_handler.py:191-225). -/
def execute_transition (st : ObsState) (roster : List (String × Team))
    (team1_name team2_name : String) : Except PyErr ObsState := do
  let st := st.addLog
    ("[Tournament] Executing transition: " ++ team1_name ++ " vs " ++ team2_name)
  let st ←
    match get_team roster team1_name with
    | some team1 =>
      apply_team_to_sources st team1 T1_NAME_SOURCE T1_HELM_PRE T1_MC_PRE
        T1_FLEX_PRE T1_BILGE_PRE
    | none =>
      pure (st.addLog ("[Tournament] Team 1 not found in roster: " ++ team1_name))
  let st ←
    match get_team roster team2_name with
    | some team2 =>
      apply_team_to_sources st team2 T2_NAME_SOURCE T2_HELM_PRE T2_MC_PRE
        T2_FLEX_PRE T2_BILGE_PRE
    | none =>
      pure (st.addLog ("[Tournament] Team 2 not found in roster: " ++ team2_name))
  pure (st.addLog "[Tournament] Transition complete!")

/-! ## Predicates and spec-side definitions used by the claim statements -/

/-- The implicit arity precondition on a stored position tuple (claim C9):
a populated position must carry at least two values (player name, channel)
for `get_player_name`/`get_twitch_link` to be safe. -/
def wfPos : Option (List Json) → Bool
  | none => true
  | some l => decide (2 ≤ l.length)

/-- All four positions of a team satisfy the arity precondition. -/
def wfTeamArity (t : Team) : Bool :=
  wfPos t.helm && wfPos t.flex && wfPos t.mc && wfPos t.bilge

/-- Is this source one of side 2's sources: the side-2 team-name text
source, or a source matching one of the four side-2 position prefixes? -/
def isSide2Source (s : Source) : Bool :=
  s.name == T2_NAME_SOURCE || pyStartsWith s.name T2_HELM_PRE ||
    pyStartsWith s.name T2_MC_PRE || pyStartsWith s.name T2_FLEX_PRE ||
    pyStartsWith s.name T2_BILGE_PRE

/-- Is this source one of side 1's sources: the side-1 team-name text
source, or a source matching one of the four side-1 position prefixes? -/
def isSide1Source (s : Source) : Bool :=
  s.name == T1_NAME_SOURCE || pyStartsWith s.name T1_HELM_PRE ||
    pyStartsWith s.name T1_MC_PRE || pyStartsWith s.name T1_FLEX_PRE ||
    pyStartsWith s.name T1_BILGE_PRE

/-- Two prefixes are independent when neither is a string prefix of the
other; then no source name can match both, and a source renamed to
`"{p} {player}"` still matches only `p`. -/
def incompPre (p q : String) : Bool :=
  !(p.data.isPrefixOf q.data) && !(q.data.isPrefixOf p.data)

/-- Exactly one enumerated source matches the prefix. -/
def uniqueMatch (l : List Source) (pre : String) : Prop :=
  l.countP (fun s => matchesName s.name pre) = 1

/-- A well-formed `points_by_participant` element: a record carrying a
hashable `participant_id` (an unhashable id would make
`PARTICIPANTS.get` raise `TypeError`). -/
def wfPoint : Json → Bool
  | .obj pfs =>
    (match olookup pfs "participant_id" with
     | some idj => pyHashable idj
     | none => false)
  | _ => false

/-- A match record of the shape the matches endpoint returns (claim C3):
an `attributes` record; if `suggested_play_order` is present and non-null
it is a number, and the first two `points_by_participant` entries carry
participant ids. -/
def wfMatchRecord (m : Json) : Bool :=
  match m with
  | .obj fs =>
    match olookup fs "attributes" with
    | some (.obj afs) =>
      match (olookup afs "suggested_play_order").getD .null with
      | .null => true
      | .num _ =>
        (match (olookup afs "points_by_participant").getD (.arr []) with
         | .arr xs => (xs.take 2).all wfPoint
         | _ => false)
      | _ => false
    | _ => false
  | _ => false

/-- The play order stored for a raw match record (`none` when the field is
missing or null, so the record is skipped). -/
def recPlayOrder (m : Json) : Option Int :=
  match m with
  | .obj fs =>
    match olookup fs "attributes" with
    | some (.obj afs) =>
      match (olookup afs "suggested_play_order").getD .null with
      | .null => none
      | .num n => some n
      | _ => none
    | _ => none
  | _ => none

/-- The `points_by_participant` list of a raw match record (empty when
missing). -/
def recPoints (m : Json) : List Json :=
  match m with
  | .obj fs =>
    match olookup fs "attributes" with
    | some (.obj afs) =>
      match (olookup afs "points_by_participant").getD (.arr []) with
      | .arr xs => xs
      | _ => []
    | _ => []
  | _ => []

/-- Modelled from the spec (§4.2): side `i` of a match is the participant
name resolved through the current Participant mapping from element `i` of
`points_by_participant`, absent (null) when the list has at most `i`
entries or the id is unknown. -/
def spec_side (parts : List (Int × Json)) (points : List Json) (i : Nat) : Json :=
  match points.get? i with
  | none => .null
  | some pt =>
    match pt with
    | .obj pfs =>
      match olookup pfs "participant_id" with
      | some idj => participants_lookup parts idj
      | none => .null
    | _ => .null

/-- A schema-conforming position slot of a roster team record (§6): if the
slot key is present its value is null or a record, and the record's
`name` field, when present, is a string. -/
def wfSlot (fs : List (String × Json)) (slot : String) : Bool :=
  match olookup fs slot with
  | none => true
  | some .null => true
  | some (.obj rfs) =>
    (match olookup rfs "name" with
     | none => true
     | some .null => true
     | some (.str _) => true
     | some _ => false)
  | some _ => false

/-- All four position slots of a team record are schema-conforming. -/
def wfTeamData (fs : List (String × Json)) : Bool :=
  wfSlot fs "helm" && wfSlot fs "mc" && wfSlot fs "flex" && wfSlot fs "bilge"

/-- Modelled from the spec (§4.1/§8): a position is absent exactly when the
slot's JSON record is missing (or null) or its `name` field is empty or
missing — irrespective of any other fields of the record. -/
def spec_position_absent (fs : List (String × Json)) (slot : String) : Bool :=
  match olookup fs slot with
  | none => true
  | some .null => true
  | some (.obj rfs) =>
    (match olookup rfs "name" with
     | none => true
     | some .null => true
     | some (.str s) => s.isEmpty
     | some _ => false)
  | some _ => false

/-- Decimal decoding of a digit string continuing from accumulator `a`;
used to invert `Nat.toDigits` when proving that the decimal rendering of
the play-order key `G{n}_T{s}` is injective. -/
def decFrom (a : Nat) (l : List Char) : Nat :=
  l.foldl (fun acc c => acc * 10 + (c.toNat - 48)) a

/-! # Theorems -/

/-! ## Generic helper lemmas -/

@[simp] theorem except_bind_ok {ε α β : Type} (a : α) (f : α → Except ε β) :
    (Except.ok a >>= f : Except ε β) = f a := rfl

@[simp] theorem except_bind_error {ε α β : Type} (e : ε) (f : α → Except ε β) :
    (Except.error e >>= f : Except ε β) = Except.error e := rfl

@[simp] theorem except_map_ok {ε α β : Type} (a : α) (f : α → β) :
    (f <$> Except.ok a : Except ε β) = Except.ok (f a) := rfl

@[simp] theorem except_map_error {ε α β : Type} (e : ε) (f : α → β) :
    (f <$> Except.error e : Except ε β) = Except.error e := rfl

@[simp] theorem except_pure_def {ε α : Type} (a : α) :
    (pure a : Except ε α) = Except.ok a := rfl

theorem isEmpty_false_of_ne {c : String} (h : c ≠ "") : c.isEmpty = false := by
  cases hc : c.isEmpty
  · rfl
  · exact absurd ((String.isEmpty_iff c).mp hc) h

theorem api_request_failure {api_key : String} {resp : ApiResponse}
    (hK : api_key ≠ "") (hf : resp.isFailure = true) :
    (api_request api_key resp).1 = none ∧ (api_request api_key resp).2 ≠ [] := by
  have hk : api_key.isEmpty = false := isEmpty_false_of_ne hK
  cases resp with
  | success _ => simp [ApiResponse.isFailure] at hf
  | httpError code reason body =>
    cases body <;> simp [api_request, hk]
  | urlError reason => simp [api_request, hk]
  | decodeError msg => simp [api_request, hk]
  | otherError msg => simp [api_request, hk]

/-- Characterization of `get_participants`: either the participants dict is
untouched, or the call succeeded on a truthy payload carrying `"data"`. -/
theorem get_participants_cases (st : BracketState) (resp : ApiResponse) :
    (get_participants st resp).1.PARTICIPANTS = st.PARTICIPANTS ∨
    ((get_participants st resp).2 = none ∧
      ∃ j, resp = .success j ∧ j.truthy = true ∧ pyContains j "data" = .ok true) := by
  unfold get_participants
  by_cases hT : st.TOURNAMENT_ID.isEmpty
  · left; simp [hT, BracketState.addLogs]
  · simp only [hT, Bool.false_eq_true, if_false]
    by_cases hK : st.API_KEY.isEmpty
    · left; cases resp <;> simp [api_request, hK, BracketState.addLogs]
    · cases resp with
      | success j =>
        simp only [api_request, hK, Bool.false_eq_true, if_false]
        by_cases htr : j.truthy
        · simp only [htr, if_true]
          cases hc : pyContains j "data" with
          | error e => left; simp [BracketState.addLogs]
          | ok b =>
            cases b with
            | false => left; simp [BracketState.addLogs]
            | true =>
              cases hs : pySubscript j "data" with
              | error e => left; simp [hs, BracketState.addLogs]
              | ok data =>
                cases hi : pyIter data with
                | error e => left; simp [hs, hi, BracketState.addLogs]
                | ok recs =>
                  cases hb : build_participants recs with
                  | error e => left; simp [hs, hi, hb, BracketState.addLogs]
                  | ok m =>
                    right
                    refine ⟨?_, j, rfl, htr, hc⟩
                    simp [hs, hi, hb, BracketState.addLogs]
        · left; simp [htr, BracketState.addLogs]
      | httpError code reason body =>
        left; cases body <;> simp [api_request, hK, BracketState.addLogs]
      | urlError reason => left; simp [api_request, hK, BracketState.addLogs]
      | decodeError msg => left; simp [api_request, hK, BracketState.addLogs]
      | otherError msg => left; simp [api_request, hK, BracketState.addLogs]

/-! ## Claim C2 -/

/-- C2: for every failure of a fetch operation (transport/URL error, HTTP
error status, or malformed payload — i.e. any non-success outcome of
`_api_request`), `get_participants` and `get_matches` log the error and
leave the previously loaded in-memory mapping completely unchanged, and no
exception propagates to the caller. -/
theorem C2_fetch_failure_preserves_state (st : BracketState) (resp : ApiResponse)
    (hT : st.TOURNAMENT_ID ≠ "") (hK : st.API_KEY ≠ "")
    (hf : resp.isFailure = true) :
    get_participants st resp = (st.addLogs (api_request st.API_KEY resp).2, none) ∧
    get_matches st resp = (st.addLogs (api_request st.API_KEY resp).2, none) ∧
    (get_participants st resp).1.PARTICIPANTS = st.PARTICIPANTS ∧
    (get_matches st resp).1.MATCHES = st.MATCHES ∧
    (api_request st.API_KEY resp).2 ≠ [] := by
  have hT2 : st.TOURNAMENT_ID.isEmpty = false := isEmpty_false_of_ne hT
  obtain ⟨h1, h2⟩ := api_request_failure hK hf
  have hp : get_participants st resp = (st.addLogs (api_request st.API_KEY resp).2, none) := by
    unfold get_participants
    simp only [hT2, Bool.false_eq_true, if_false, h1]
  have hm : get_matches st resp = (st.addLogs (api_request st.API_KEY resp).2, none) := by
    unfold get_matches
    simp only [hT2, Bool.false_eq_true, if_false, h1]
  refine ⟨hp, hm, ?_, ?_, h2⟩
  · rw [hp]; rfl
  · rw [hm]; rfl

/-- Witness for C2 at a concrete state and a simulated transport error. -/
theorem C2_fetch_failure_preserves_state_witness :
    get_participants ⟨"k", "t", [(7, Json.str "A")], [(1, (Json.null, Json.null))], []⟩
        (.urlError "boom") =
      (⟨"k", "t", [(7, Json.str "A")], [(1, (Json.null, Json.null))],
        ["[Challonge] URL Error: boom"]⟩, none) ∧
    get_matches ⟨"k", "t", [(7, Json.str "A")], [(1, (Json.null, Json.null))], []⟩
        (.urlError "boom") =
      (⟨"k", "t", [(7, Json.str "A")], [(1, (Json.null, Json.null))],
        ["[Challonge] URL Error: boom"]⟩, none) := by
  have h := C2_fetch_failure_preserves_state
    ⟨"k", "t", [(7, Json.str "A")], [(1, (Json.null, Json.null))], []⟩
    (.urlError "boom") (by decide) (by decide) (by decide)
  exact ⟨h.1, h.2.1⟩

/-! ## Claim C10 -/

/-- C10: `get_participants` replaces the participants dict atomically: the
comprehension is evaluated in full before the single assignment, so if
construction fails partway (an exception escapes), or if a successful
response is not a truthy payload carrying a `"data"` key, the previous
mapping is completely unchanged (never partially rewritten). -/
theorem C10_participants_atomic (st : BracketState) (resp : ApiResponse)
    (h : (get_participants st resp).2 ≠ none ∨
      ∃ j, resp = .success j ∧
        ¬(j.truthy = true ∧ pyContains j "data" = .ok true)) :
    (get_participants st resp).1.PARTICIPANTS = st.PARTICIPANTS := by
  rcases get_participants_cases st resp with hL | ⟨hnone, j, hj, htr, hct⟩
  · exact hL
  · rcases h with h | ⟨j2, hj2, hn⟩
    · exact absurd hnone h
    · rw [hj] at hj2
      cases hj2
      exact absurd ⟨htr, hct⟩ hn

/-- Witness for C10: a payload whose record lacks `"id"` makes the
comprehension raise `KeyError`; the participants dict is untouched. -/
theorem C10_participants_atomic_witness :
    (get_participants ⟨"k", "t", [(7, Json.str "A")], [], []⟩
        (.success (Json.obj [("data", Json.arr [Json.obj []])]))).2 ≠ none ∧
    (get_participants ⟨"k", "t", [(7, Json.str "A")], [], []⟩
        (.success (Json.obj [("data", Json.arr [Json.obj []])]))).1.PARTICIPANTS =
      [(7, Json.str "A")] := by
  refine ⟨by decide, ?_⟩
  exact C10_participants_atomic _ _ (Or.inl (by decide))

/-! ## Claim C4 -/

/-- C4: when the roster file is missing or its content is not valid JSON,
`load_roster` logs a diagnostic, retains the previous in-memory roster
with all entries intact, and raises no exception. -/
theorem C4_load_roster_soft_fail (st : RosterState) (file : RosterFile)
    (h : file = .missing ∨ ∃ msg, file = .malformed msg) :
    (load_roster st file).1.TEAM_ROSTER = st.TEAM_ROSTER ∧
    (load_roster st file).2 = none ∧
    ∃ d, (load_roster st file).1.log = st.log ++ [d] := by
  rcases h with h | ⟨msg, h⟩ <;> subst h <;> exact ⟨rfl, rfl, _, rfl⟩

/-- Witness for C4 at a concrete previous roster and a missing file. -/
theorem C4_load_roster_soft_fail_witness :
    (load_roster ⟨[("A", ⟨"A", none, none, none, none⟩)], []⟩ .missing).1.TEAM_ROSTER =
      [("A", ⟨"A", none, none, none, none⟩)] ∧
    (load_roster ⟨[("A", ⟨"A", none, none, none, none⟩)], []⟩ .missing).2 = none := by
  have h := C4_load_roster_soft_fail ⟨[("A", ⟨"A", none, none, none, none⟩)], []⟩
    .missing (Or.inl rfl)
  exact ⟨h.1, h.2.1⟩

/-! ## Claim C7 -/

/-- C7: for every non-empty channel string the URL builder returns exactly
the fixed Twitch player embed URL with the channel spliced in, and the
empty channel yields the empty string. -/
theorem C7_build_twitch_url (c : String) (h : c ≠ "") :
    build_twitch_url c = "https://player.twitch.tv/?channel=" ++ c ++
      "&enableExtensions=true&muted=false&parent=twitch.tv&player=popout&quality=480p30&volume=0.69" ∧
    build_twitch_url "" = "" := by
  refine ⟨?_, rfl⟩
  rw [build_twitch_url, if_neg (by simp [isEmpty_false_of_ne h])]
  rw [String.append_assoc]
  rfl

/-- Witness for C7 at channel `"abc"`. -/
theorem C7_build_twitch_url_witness :
    build_twitch_url "abc" =
      "https://player.twitch.tv/?channel=abc&enableExtensions=true&muted=false&parent=twitch.tv&player=popout&quality=480p30&volume=0.69" ∧
    build_twitch_url "" = "" := by
  have h := C7_build_twitch_url "abc" (by decide)
  exact ⟨h.1.trans (by rfl), h.2⟩

/-! ## Claim C9 -/

/-- C9: a populated position is stored as the tuple of the JSON record's
declared values in order, so a roster record whose position object has a
non-empty name but only one value stores a 1-tuple, on which
`get_twitch_link` — and hence `apply_team_to_sources` on that team —
raises `IndexError`; the error branch is unreachable exactly under the
precondition that every populated tuple carries at least two values. -/
theorem C9_position_arity (fs : List (String × Json)) (nm : String)
    (hnm : nm ≠ "") (hh : olookup fs "helm" = some (.obj [("name", .str nm)])) :
    position_tup (.obj fs) "helm" = .ok (some [.str nm]) ∧
    get_twitch_link (some [.str nm]) = .error .indexError ∧
    (∀ (st : ObsState) (ns hp mp fp bp : String) (team : Team) (x : Json),
      team.helm = some [x] →
      apply_team_to_sources st team ns hp mp fp bp = .error .indexError) ∧
    (∀ l : List Json, 2 ≤ l.length → ∃ v, get_twitch_link (some l) = .ok v) := by
  refine ⟨?_, rfl, ?_, ?_⟩
  · have h0 : pyDictGet (Json.obj fs) "helm" = .ok (.obj [("name", .str nm)]) := by
      simp [pyDictGet, hh]
    unfold position_tup
    rw [h0]
    simp [Json.truthy, pyDictGet, olookup, dget?, pyValues, isEmpty_false_of_ne hnm]
  · intro st ns hp mp fp bp team x hteam
    unfold apply_team_to_sources
    rw [hteam]
    simp [get_player_name, get_twitch_link]
  · intro l hl
    have h1 : 1 < l.length := by omega
    refine ⟨l.get ⟨1, h1⟩, ?_⟩
    simp [get_twitch_link, List.get?_eq_getElem?, List.getElem?_eq_getElem h1]

/-- Witness for C9 at the concrete one-value record
`{"helm": {"name": "X"}}`. -/
theorem C9_position_arity_witness :
    position_tup (.obj [("helm", Json.obj [("name", Json.str "X")])]) "helm" =
      .ok (some [Json.str "X"]) ∧
    get_twitch_link (some [Json.str "X"]) = .error .indexError := by
  have h := C9_position_arity [("helm", Json.obj [("name", Json.str "X")])] "X"
    (by decide) (by rfl)
  exact ⟨h.1, h.2.1⟩

/-! ## Claim C5 -/

/-- For a schema-conforming slot, `position_tup` succeeds and yields an
absent position exactly under the spec's absence condition. -/
theorem position_tup_wf (fs : List (String × Json)) (slot : String)
    (h : wfSlot fs slot = true) :
    ∃ o, position_tup (.obj fs) slot = .ok o ∧
      (o = none ↔ spec_position_absent fs slot = true) := by
  unfold wfSlot at h
  cases hs : olookup fs slot with
  | none =>
    refine ⟨none, ?_, ?_⟩
    · unfold position_tup
      rw [show pyDictGet (Json.obj fs) slot = .ok Json.null by simp [pyDictGet, hs]]
      simp [Json.truthy]
    · simp only [spec_position_absent]
      rw [hs]
      exact iff_of_true trivial rfl
  | some rec0 =>
    rw [hs] at h
    have h0 : pyDictGet (Json.obj fs) slot = .ok rec0 := by simp [pyDictGet, hs]
    cases rec0 with
    | null =>
      refine ⟨none, ?_, ?_⟩
      · unfold position_tup
        rw [h0]
        simp [Json.truthy]
      · simp only [spec_position_absent]
        rw [hs]
        exact iff_of_true trivial rfl
    | obj rfs =>
      have h2 : (match olookup rfs "name" with
          | none => true
          | some Json.null => true
          | some (Json.str _) => true
          | some _ => false) = true := h
      by_cases he : rfs.isEmpty
      · have hrfs : rfs = [] := by
          cases rfs with
          | nil => rfl
          | cons a b => simp [List.isEmpty] at he
        subst hrfs
        refine ⟨none, ?_, ?_⟩
        · unfold position_tup
          rw [h0]
          simp [Json.truthy]
        · simp only [spec_position_absent]
          rw [hs]
          simp [olookup, dget?]
      · have hne : rfs ≠ [] := by
          intro hcon
          rw [hcon] at he
          exact he rfl
        have htr : Json.truthy (.obj rfs) = true := by
          simp [Json.truthy, he]
        have h1 : pyDictGet (Json.obj rfs) "name" =
            .ok ((olookup rfs "name").getD .null) := by simp [pyDictGet]
        cases hn : olookup rfs "name" with
        | none =>
          refine ⟨none, ?_, ?_⟩
          · unfold position_tup
            rw [h0]
            simp [htr, h1, hn, Json.truthy]
          · simp only [spec_position_absent]
            rw [hs]
            simp [hn]
        | some namev =>
          rw [hn] at h2
          cases namev with
          | null =>
            refine ⟨none, ?_, ?_⟩
            · unfold position_tup
              rw [h0]
              simp [htr, h1, hn, Json.truthy]
            · simp only [spec_position_absent]
              rw [hs]
              simp [hn]
          | str sv =>
            by_cases hse : sv.isEmpty
            · refine ⟨none, ?_, ?_⟩
              · unfold position_tup
                rw [h0]
                simp [htr, h1, hn, Json.truthy, hse]
              · simp only [spec_position_absent]
                rw [hs]
                simp [hn, hse]
            · refine ⟨some (rfs.map (·.2)), ?_, ?_⟩
              · unfold position_tup
                rw [h0]
                simp [htr, h1, hn, Json.truthy, hse, pyValues, hne]
              · simp only [spec_position_absent]
                rw [hs]
                simp [hn, hse]
          | bool b => simp at h2
          | num n => simp at h2
          | arr xs => simp at h2
          | obj ofs => simp at h2
    | bool b => simp at h
    | num n => simp at h
    | str sv => simp at h
    | arr xs => simp at h

/-- C5: for every schema-conforming roster team record, construction
succeeds, and each of the four positions of the resulting team is absent
exactly when the slot's record is missing (or null) or its `name` field is
empty or missing — regardless of any other fields in the record — and is
populated otherwise. -/
theorem C5_position_populated_iff (tn : String) (fs : List (String × Json))
    (h : wfTeamData fs = true) :
    ∃ t, build_team tn (.obj fs) = .ok t ∧ t.name = tn ∧
      (t.helm = none ↔ spec_position_absent fs "helm" = true) ∧
      (t.mc = none ↔ spec_position_absent fs "mc" = true) ∧
      (t.flex = none ↔ spec_position_absent fs "flex" = true) ∧
      (t.bilge = none ↔ spec_position_absent fs "bilge" = true) := by
  unfold wfTeamData at h
  simp only [Bool.and_eq_true] at h
  obtain ⟨⟨⟨hh, hm⟩, hf⟩, hb⟩ := h
  obtain ⟨oh, hoh, hih⟩ := position_tup_wf fs "helm" hh
  obtain ⟨om, hom, him⟩ := position_tup_wf fs "mc" hm
  obtain ⟨og, hog, hig⟩ := position_tup_wf fs "flex" hf
  obtain ⟨ob, hob, hib⟩ := position_tup_wf fs "bilge" hb
  refine ⟨⟨tn, oh, og, om, ob⟩, ?_, rfl, hih, him, hig, hib⟩
  unfold build_team
  rw [hoh, hom, hog, hob]
  simp

/-- Witness for C5: a record whose helm has an empty name but a channel
(absent), whose mc is fully populated, and whose flex/bilge are missing. -/
theorem C5_position_populated_iff_witness :
    ∃ t, build_team "Alpha"
        (.obj [("helm", Json.obj [("name", Json.str ""), ("channel", Json.str "c")]),
               ("mc", Json.obj [("name", Json.str "Y"), ("channel", Json.str "c2")])]) =
      .ok t ∧ t.name = "Alpha" ∧
      (t.helm = none ↔ spec_position_absent
        [("helm", Json.obj [("name", Json.str ""), ("channel", Json.str "c")]),
         ("mc", Json.obj [("name", Json.str "Y"), ("channel", Json.str "c2")])] "helm" = true) ∧
      (t.mc = none ↔ spec_position_absent
        [("helm", Json.obj [("name", Json.str ""), ("channel", Json.str "c")]),
         ("mc", Json.obj [("name", Json.str "Y"), ("channel", Json.str "c2")])] "mc" = true) ∧
      (t.flex = none ↔ spec_position_absent
        [("helm", Json.obj [("name", Json.str ""), ("channel", Json.str "c")]),
         ("mc", Json.obj [("name", Json.str "Y"), ("channel", Json.str "c2")])] "flex" = true) ∧
      (t.bilge = none ↔ spec_position_absent
        [("helm", Json.obj [("name", Json.str ""), ("channel", Json.str "c")]),
         ("mc", Json.obj [("name", Json.str "Y"), ("channel", Json.str "c2")])] "bilge" = true) :=
  C5_position_populated_iff "Alpha"
    [("helm", Json.obj [("name", Json.str ""), ("channel", Json.str "c")]),
     ("mc", Json.obj [("name", Json.str "Y"), ("channel", Json.str "c2")])] (by decide)

/-! ## Claim C3 -/

theorem dget?_cons {α β : Type} [DecidableEq α] (e : α × β) (l : List (α × β))
    (k : α) : dget? (e :: l) k = if e.1 = k then some e.2 else dget? l k := by
  by_cases he : e.1 = k <;> simp [dget?, List.find?_cons, he]

theorem dget?_dinsert_self {α β : Type} [DecidableEq α] (k : α) (v : β)
    (l : List (α × β)) : dget? (dinsert k v l) k = some v := by
  induction l with
  | nil => simp [dinsert, dget?_cons]
  | cons e rest ih =>
    by_cases he : e.1 = k
    · simp [dinsert, he, dget?_cons]
    · simp [dinsert, he, dget?_cons, ih]

theorem dget?_dinsert_ne {α β : Type} [DecidableEq α] (k k2 : α) (v : β)
    (l : List (α × β)) (h : k2 ≠ k) :
    dget? (dinsert k v l) k2 = dget? l k2 := by
  induction l with
  | nil => simp [dinsert, dget?_cons, dget?, Ne.symm h]
  | cons e rest ih =>
    by_cases he : e.1 = k
    · subst he
      simp [dinsert, dget?_cons, Ne.symm h]
    · simp [dinsert, he, dget?_cons, ih]

theorem length_dinsert_le {α β : Type} [DecidableEq α] (k : α) (v : β)
    (l : List (α × β)) : (dinsert k v l).length ≤ l.length + 1 := by
  induction l with
  | nil => simp [dinsert]
  | cons e rest ih =>
    by_cases he : e.1 = k
    · simp [dinsert, he]
    · simp only [dinsert, he, if_false, List.length_cons]
      omega

theorem mem_dinsert {α β : Type} [DecidableEq α] {k : α} {v : β}
    {l : List (α × β)} {e : α × β} (h : e ∈ dinsert k v l) :
    e = (k, v) ∨ e ∈ l := by
  induction l with
  | nil => simpa [dinsert] using h
  | cons e2 rest ih =>
    by_cases he : e2.1 = k
    · simp only [dinsert, he, if_true, List.mem_cons] at h
      rcases h with h | h
      · exact Or.inl h
      · exact Or.inr (List.mem_cons_of_mem _ h)
    · simp only [dinsert, he, if_false, List.mem_cons] at h
      rcases h with h | h
      · exact Or.inr (h ▸ List.mem_cons_self _ _)
      · rcases ih h with h2 | h2
        · exact Or.inl h2
        · exact Or.inr (List.mem_cons_of_mem _ h2)

theorem olookup_truthy {fs : List (String × Json)} {k : String} {v : Json}
    (h : olookup fs k = some v) : (Json.obj fs).truthy = true := by
  cases fs with
  | nil => simp [olookup, dget?] at h
  | cons e rest => simp [Json.truthy]

theorem olookup_any {fs : List (String × Json)} {k : String} {v : Json}
    (h : olookup fs k = some v) : fs.any (fun e => e.1 == k) = true := by
  induction fs with
  | nil => simp [olookup, dget?] at h
  | cons e rest ih =>
    rw [olookup, dget?_cons] at h
    by_cases he : e.1 = k
    · simp [he]
    · simp only [he, if_false] at h
      simp [ih h]

theorem participants_lookup_null (parts : List (Int × Json)) :
    participants_lookup parts .null = .null := by
  induction parts with
  | nil => rfl
  | cons e rest ih =>
    simpa [participants_lookup, List.find?_cons, jsonEqInt] using ih

theorem participants_get_null (parts : List (Int × Json)) :
    participants_get parts .null = .ok .null := by
  show Except.ok (participants_lookup parts .null) = .ok .null
  rw [participants_lookup_null]

theorem participants_get_hashable (parts : List (Int × Json)) {idj : Json}
    (h : pyHashable idj = true) :
    participants_get parts idj = .ok (participants_lookup parts idj) := by
  cases idj with
  | arr xs => simp [pyHashable] at h
  | obj fs => simp [pyHashable] at h
  | null => rfl
  | bool b => rfl
  | num n => rfl
  | str s => rfl

theorem wfPoint_elim {pt : Json} (h : wfPoint pt = true) :
    ∃ pfs idj, pt = .obj pfs ∧ olookup pfs "participant_id" = some idj ∧
      pyHashable idj = true := by
  cases pt with
  | obj pfs =>
    have h2 : (match olookup pfs "participant_id" with
        | some idj => pyHashable idj
        | none => false) = true := h
    cases hidj : olookup pfs "participant_id" with
    | none => rw [hidj] at h2; simp at h2
    | some idj =>
      rw [hidj] at h2
      exact ⟨pfs, idj, rfl, hidj, h2⟩
  | null => simp [wfPoint] at h
  | bool b => simp [wfPoint] at h
  | num n => simp [wfPoint] at h
  | str s => simp [wfPoint] at h
  | arr xs => simp [wfPoint] at h

theorem match_sides_wf (parts : List (Int × Json)) (afs : List (String × Json))
    (xs : List Json)
    (hp : (olookup afs "points_by_participant").getD (.arr []) = .arr xs)
    (hwf : (xs.take 2).all wfPoint = true) :
    match_sides parts (.obj afs) =
      .ok (spec_side parts xs 0, spec_side parts xs 1) := by
  have h0 : pyDictGetD (.obj afs) "points_by_participant" (Json.arr []) =
      .ok (.arr xs) := by simp [pyDictGetD, hp]
  unfold match_sides
  rw [h0]
  cases xs with
  | nil =>
    simp [pyLen, spec_side, participants_get_null]
  | cons a rest =>
    cases rest with
    | nil =>
      simp only [List.take, List.all_cons, List.all_nil, Bool.and_eq_true] at hwf
      obtain ⟨pfs, idj, rfl, hidj, hhash⟩ := wfPoint_elim hwf.1
      simp [pyLen, pyIndex, pySubscript, hidj, spec_side,
        participants_get_hashable parts hhash, participants_get_null]
    | cons b rest2 =>
      simp only [List.take, List.all_cons, Bool.and_eq_true] at hwf
      obtain ⟨pfsa, idja, rfl, hidja, hhasha⟩ := wfPoint_elim hwf.1
      obtain ⟨pfsb, idjb, rfl, hidjb, hhashb⟩ := wfPoint_elim hwf.2.1
      simp [pyLen, pyIndex, pySubscript, hidja, hidjb, spec_side,
        participants_get_hashable parts hhasha,
        participants_get_hashable parts hhashb]

/-- The loop body stores exactly the skipped-or-resolved outcome for a
well-formed record. -/
theorem match_step_wf (parts : List (Int × Json))
    (acc : List (Int × (Json × Json))) (m : Json)
    (h : wfMatchRecord m = true) :
    match_step parts acc m = .ok
      (match recPlayOrder m with
       | none => acc
       | some k =>
         dinsert k (spec_side parts (recPoints m) 0,
           spec_side parts (recPoints m) 1) acc) := by
  cases m with
  | obj fs =>
    have h2 : (match olookup fs "attributes" with
        | some (.obj afs) =>
          (match (olookup afs "suggested_play_order").getD .null with
           | .null => true
           | .num _ =>
             (match (olookup afs "points_by_participant").getD (.arr []) with
              | .arr xs => (xs.take 2).all wfPoint
              | _ => false)
           | _ => false)
        | _ => false) = true := h
    cases ha : olookup fs "attributes" with
    | none => rw [ha] at h2; simp at h2
    | some attrs =>
      rw [ha] at h2
      have hsub : pySubscript (.obj fs) "attributes" = .ok attrs := by
        simp [pySubscript, ha]
      cases attrs with
      | obj afs =>
        have h3 : (match (olookup afs "suggested_play_order").getD .null with
            | .null => true
            | .num _ =>
              (match (olookup afs "points_by_participant").getD (.arr []) with
               | .arr xs => (xs.take 2).all wfPoint
               | _ => false)
            | _ => false) = true := h2
        have hget : pyDictGet (.obj afs) "suggested_play_order" =
            .ok ((olookup afs "suggested_play_order").getD .null) := by
          simp [pyDictGet]
        cases hpo : (olookup afs "suggested_play_order").getD .null with
        | null =>
          have hrec : recPlayOrder (.obj fs) = none := by
            simp [recPlayOrder, ha, hpo]
          unfold match_step
          rw [hsub]
          simp [hget, hpo, Json.isNull, hrec]
        | num n =>
          rw [hpo] at h3
          have hrec : recPlayOrder (.obj fs) = some n := by
            simp [recPlayOrder, ha, hpo]
          cases hpp : (olookup afs "points_by_participant").getD (.arr []) with
          | arr xs =>
            rw [hpp] at h3
            have hrp : recPoints (.obj fs) = xs := by
              simp [recPoints, ha, hpp]
            have hsides := match_sides_wf parts afs xs hpp h3
            unfold match_step
            rw [hsub]
            simp [hget, hpo, Json.isNull, hsides, pyInt, hrec, hrp]
          | null => rw [hpp] at h3; simp at h3
          | bool b => rw [hpp] at h3; simp at h3
          | num n2 => rw [hpp] at h3; simp at h3
          | str s => rw [hpp] at h3; simp at h3
          | obj ofs => rw [hpp] at h3; simp at h3
        | bool b => rw [hpo] at h3; simp at h3
        | str s => rw [hpo] at h3; simp at h3
        | arr xs => rw [hpo] at h3; simp at h3
        | obj ofs => rw [hpo] at h3; simp at h3
      | null => simp at h2
      | bool b => simp at h2
      | num n => simp at h2
      | str s => simp at h2
      | arr xs => simp at h2
  | null => simp [wfMatchRecord] at h
  | bool b => simp [wfMatchRecord] at h
  | num n => simp [wfMatchRecord] at h
  | str s => simp [wfMatchRecord] at h
  | arr xs => simp [wfMatchRecord] at h

/-- Invariant of the `get_matches` loop over well-formed records. -/
theorem run_match_loop_wf (parts : List (Int × Json)) :
    ∀ (recs : List Json) (acc : List (Int × (Json × Json))),
    recs.all wfMatchRecord = true →
    (run_match_loop parts recs acc).2 = none ∧
    (run_match_loop parts recs acc).1.length ≤ acc.length + recs.length ∧
    (∀ k : Int, (dget? (run_match_loop parts recs acc).1 k).isSome = true ↔
      ((dget? acc k).isSome = true ∨ ∃ m ∈ recs, recPlayOrder m = some k)) ∧
    (∀ e, e ∈ (run_match_loop parts recs acc).1 → e ∈ acc ∨
      ∃ m ∈ recs, recPlayOrder m = some e.1 ∧
        e.2 = (spec_side parts (recPoints m) 0, spec_side parts (recPoints m) 1)) := by
  intro recs
  induction recs with
  | nil =>
    intro acc _
    refine ⟨rfl, by simp [run_match_loop], ?_, ?_⟩
    · intro k; simp [run_match_loop]
    · intro e he; simp only [run_match_loop] at he; exact Or.inl he
  | cons m rest ih =>
    intro acc hall
    simp only [List.all_cons, Bool.and_eq_true] at hall
    obtain ⟨hm, hrest⟩ := hall
    have hstep := match_step_wf parts acc m hm
    cases hpo : recPlayOrder m with
    | none =>
      rw [hpo] at hstep
      have hstep2 : match_step parts acc m = .ok acc := hstep
      have hred : run_match_loop parts (m :: rest) acc =
          run_match_loop parts rest acc := by
        have hdef : run_match_loop parts (m :: rest) acc =
            match match_step parts acc m with
            | .error e => (acc, some e)
            | .ok acc2 => run_match_loop parts rest acc2 := rfl
        rw [hdef, hstep2]
      rw [hred]
      obtain ⟨h1, h2, h3, h4⟩ := ih acc hrest
      refine ⟨h1, by simpa using Nat.le_succ_of_le h2, ?_, ?_⟩
      · intro k
        rw [h3 k]
        constructor
        · rintro (h | ⟨m2, hm2, hk⟩)
          · exact Or.inl h
          · exact Or.inr ⟨m2, List.mem_cons_of_mem _ hm2, hk⟩
        · rintro (h | ⟨m2, hm2, hk⟩)
          · exact Or.inl h
          · rcases List.mem_cons.mp hm2 with rfl | hm2
            · rw [hpo] at hk; cases hk
            · exact Or.inr ⟨m2, hm2, hk⟩
      · intro e he
        rcases h4 e he with h | ⟨m2, hm2, hk, hv⟩
        · exact Or.inl h
        · exact Or.inr ⟨m2, List.mem_cons_of_mem _ hm2, hk, hv⟩
    | some k0 =>
      rw [hpo] at hstep
      have hstep2 : match_step parts acc m = .ok
          (dinsert k0 (spec_side parts (recPoints m) 0,
            spec_side parts (recPoints m) 1) acc) := hstep
      have hred : run_match_loop parts (m :: rest) acc =
          run_match_loop parts rest
            (dinsert k0 (spec_side parts (recPoints m) 0,
              spec_side parts (recPoints m) 1) acc) := by
        have hdef : run_match_loop parts (m :: rest) acc =
            match match_step parts acc m with
            | .error e => (acc, some e)
            | .ok acc2 => run_match_loop parts rest acc2 := rfl
        rw [hdef, hstep2]
      rw [hred]
      obtain ⟨h1, h2, h3, h4⟩ := ih _ hrest
      refine ⟨h1, ?_, ?_, ?_⟩
      · calc _ ≤ _ := h2
          _ ≤ acc.length + 1 + rest.length := by
              have := length_dinsert_le k0
                (spec_side parts (recPoints m) 0, spec_side parts (recPoints m) 1) acc
              omega
          _ = acc.length + (m :: rest).length := by simp; omega
      · intro k
        rw [h3 k]
        by_cases hk : k = k0
        · subst hk
          simp only [dget?_dinsert_self, Option.isSome_some]
          constructor
          · intro _; exact Or.inr ⟨m, List.mem_cons_self _ _, hpo⟩
          · intro _; exact Or.inl (by simp)
        · rw [dget?_dinsert_ne _ _ _ _ hk]
          constructor
          · rintro (h | ⟨m2, hm2, hk2⟩)
            · exact Or.inl h
            · exact Or.inr ⟨m2, List.mem_cons_of_mem _ hm2, hk2⟩
          · rintro (h | ⟨m2, hm2, hk2⟩)
            · exact Or.inl h
            · rcases List.mem_cons.mp hm2 with rfl | hm2
              · rw [hpo] at hk2
                cases hk2
                exact absurd rfl hk
              · exact Or.inr ⟨m2, hm2, hk2⟩
      · intro e he
        rcases h4 e he with h | ⟨m2, hm2, hk2, hv⟩
        · rcases mem_dinsert h with h | h
          · subst h
            exact Or.inr ⟨m, List.mem_cons_self _ _, hpo, rfl⟩
          · exact Or.inl h
        · exact Or.inr ⟨m2, List.mem_cons_of_mem _ hm2, hk2, hv⟩

/-- C3: for every list of well-formed records returned by the matches
endpoint, `get_matches` succeeds and the resulting `MATCHES` dict contains
exactly the records carrying a `suggested_play_order` (records lacking it
are skipped, so the cardinality is at most the raw record count), keyed by
that integer play order, and each stored pair is the spec-side resolution
of the record's first two `points_by_participant` entries through the
current participants dict (absent/null when the list is too short or the
id is unknown). -/
theorem C3_matches_mapping (st : BracketState) (fs : List (String × Json))
    (recs : List Json)
    (hT : st.TOURNAMENT_ID ≠ "") (hK : st.API_KEY ≠ "")
    (hdata : olookup fs "data" = some (.arr recs))
    (hwf : recs.all wfMatchRecord = true) :
    ∃ st2, get_matches st (.success (.obj fs)) = (st2, none) ∧
      st2.PARTICIPANTS = st.PARTICIPANTS ∧
      (∀ k : Int, (dget? st2.MATCHES k).isSome = true ↔
        ∃ m ∈ recs, recPlayOrder m = some k) ∧
      st2.MATCHES.length ≤ recs.length ∧
      (∀ k v, (k, v) ∈ st2.MATCHES → ∃ m ∈ recs, recPlayOrder m = some k ∧
        v = (spec_side st.PARTICIPANTS (recPoints m) 0,
          spec_side st.PARTICIPANTS (recPoints m) 1)) := by
  have hT2 : st.TOURNAMENT_ID.isEmpty = false := isEmpty_false_of_ne hT
  have hK2 : st.API_KEY.isEmpty = false := isEmpty_false_of_ne hK
  have htr : (Json.obj fs).truthy = true := olookup_truthy hdata
  have hcon : pyContains (.obj fs) "data" = .ok true := by
    simp [pyContains, olookup_any hdata]
  have hsub : pySubscript (.obj fs) "data" = .ok (.arr recs) := by
    simp [pySubscript, hdata]
  obtain ⟨h1, h2, h3, h4⟩ := run_match_loop_wf st.PARTICIPANTS recs [] hwf
  have heq : get_matches st (.success (.obj fs)) =
      ((⟨st.API_KEY, st.TOURNAMENT_ID, st.PARTICIPANTS,
        (run_match_loop st.PARTICIPANTS recs []).1,
        st.log ++ ["[Challonge] Loaded " ++
          toString (run_match_loop st.PARTICIPANTS recs []).1.length ++
          " matches"]⟩ : BracketState), none) := by
    unfold get_matches
    rw [if_neg (by simp [hT2])]
    simp only [api_request, hK2, Bool.false_eq_true, if_false,
      BracketState.addLogs, List.append_nil, htr, if_true, hcon, hsub, pyIter,
      h1]
  refine ⟨_, heq, rfl, ?_, ?_, ?_⟩
  · intro k
    rw [show (⟨st.API_KEY, st.TOURNAMENT_ID, st.PARTICIPANTS,
        (run_match_loop st.PARTICIPANTS recs []).1,
        st.log ++ ["[Challonge] Loaded " ++
          toString (run_match_loop st.PARTICIPANTS recs []).1.length ++
          " matches"]⟩ : BracketState).MATCHES =
        (run_match_loop st.PARTICIPANTS recs []).1 from rfl, h3 k]
    simp [dget?]
  · simpa using h2
  · intro k v hkv
    rcases h4 (k, v) hkv with h | ⟨m2, hm2, hk2, hv⟩
    · simp at h
    · exact ⟨m2, hm2, hk2, hv⟩

/-- Witness for C3 on a concrete three-record payload (one record lacks
the play order and is skipped, one references an unknown id). -/
theorem C3_matches_mapping_witness :
    ∃ st2, get_matches ⟨"k", "t", [(7, Json.str "A"), (8, Json.str "B")], [], []⟩
        (.success (.obj [("data", Json.arr
          [Json.obj [("attributes", Json.obj [("suggested_play_order", Json.num 1),
            ("points_by_participant", Json.arr
              [Json.obj [("participant_id", Json.num 7)],
               Json.obj [("participant_id", Json.num 8)]])])],
           Json.obj [("attributes", Json.obj [("points_by_participant", Json.arr [])])],
           Json.obj [("attributes", Json.obj [("suggested_play_order", Json.num 2),
            ("points_by_participant", Json.arr
              [Json.obj [("participant_id", Json.num 9)]])])]])])) = (st2, none) ∧
      st2.MATCHES.length ≤ 3 ∧
      (dget? st2.MATCHES 1).isSome = true ∧
      (dget? st2.MATCHES 2).isSome = true := by
  obtain ⟨st2, hst, hp, hkeys, hlen, hval⟩ := C3_matches_mapping
    ⟨"k", "t", [(7, Json.str "A"), (8, Json.str "B")], [], []⟩
    [("data", Json.arr
      [Json.obj [("attributes", Json.obj [("suggested_play_order", Json.num 1),
        ("points_by_participant", Json.arr
          [Json.obj [("participant_id", Json.num 7)],
           Json.obj [("participant_id", Json.num 8)]])])],
       Json.obj [("attributes", Json.obj [("points_by_participant", Json.arr [])])],
       Json.obj [("attributes", Json.obj [("suggested_play_order", Json.num 2),
        ("points_by_participant", Json.arr
          [Json.obj [("participant_id", Json.num 9)]])])]])]
    [Json.obj [("attributes", Json.obj [("suggested_play_order", Json.num 1),
        ("points_by_participant", Json.arr
          [Json.obj [("participant_id", Json.num 7)],
           Json.obj [("participant_id", Json.num 8)]])])],
     Json.obj [("attributes", Json.obj [("points_by_participant", Json.arr [])])],
     Json.obj [("attributes", Json.obj [("suggested_play_order", Json.num 2),
        ("points_by_participant", Json.arr
          [Json.obj [("participant_id", Json.num 9)]])])]]
    (by decide) (by decide) (by rfl) (by rfl)
  refine ⟨st2, hst, by simpa using hlen, ?_, ?_⟩
  · rw [hkeys 1]
    refine ⟨Json.obj [("attributes", Json.obj [("suggested_play_order", Json.num 1),
        ("points_by_participant", Json.arr
          [Json.obj [("participant_id", Json.num 7)],
           Json.obj [("participant_id", Json.num 8)]])])], by simp, by rfl⟩
  · rw [hkeys 2]
    refine ⟨Json.obj [("attributes", Json.obj [("suggested_play_order", Json.num 2),
        ("points_by_participant", Json.arr
          [Json.obj [("participant_id", Json.num 9)]])])], by simp, by rfl⟩

/-! ## Claim C6

The bracket display keys are `f"G{game_num}_T{side}"`.  To show that
distinct play orders produce distinct keys we prove that the decimal
rendering used by Python's f-string (and modelled by `toString : Int →
String`) is injective, via the decoder `decFrom`. -/

theorem decFrom_cons (a : Nat) (c : Char) (l : List Char) :
    decFrom a (c :: l) = decFrom (a * 10 + (c.toNat - 48)) l := rfl

theorem digitChar_val {m : Nat} (h : m < 10) : (Nat.digitChar m).toNat - 48 = m := by
  interval_cases m <;> rfl

theorem digitChar_ne_dash {m : Nat} (h : m < 10) : Nat.digitChar m ≠ Char.ofNat 45 := by
  interval_cases m <;> decide

theorem decFrom_toDigitsCore :
    ∀ (fuel n : Nat) (ds : List Char), n < 10 ^ fuel →
    decFrom 0 (Nat.toDigitsCore 10 fuel n ds) = decFrom n ds := by
  intro fuel
  induction fuel with
  | zero =>
    intro n ds h
    simp only [pow_zero, Nat.lt_one_iff] at h
    subst h
    rfl
  | succ f ih =>
    intro n ds h
    rw [Nat.toDigitsCore]
    by_cases h0 : n / 10 = 0
    · simp only [h0, if_true]
      rw [decFrom_cons, digitChar_val (Nat.mod_lt _ (by norm_num))]
      have h1 : n % 10 = n := by omega
      rw [h1]
      norm_num
    · simp only [h0, if_false]
      have hlt : n / 10 < 10 ^ f := by
        rw [Nat.div_lt_iff_lt_mul (by norm_num)]
        calc n < 10 ^ (f + 1) := h
          _ = 10 ^ f * 10 := by rw [pow_succ]
      rw [ih (n / 10) _ hlt, decFrom_cons,
        digitChar_val (Nat.mod_lt _ (by norm_num))]
      have h1 : n / 10 * 10 + n % 10 = n := by omega
      rw [h1]

theorem decFrom_toDigits (n : Nat) : decFrom 0 (Nat.toDigits 10 n) = n := by
  have h : n < 10 ^ (n + 1) := by
    calc n < 2 ^ n := Nat.lt_two_pow n
      _ ≤ 10 ^ n := Nat.pow_le_pow_left (by norm_num) n
      _ ≤ 10 ^ (n + 1) := Nat.pow_le_pow_right (by norm_num) (Nat.le_succ n)
  have h2 := decFrom_toDigitsCore (n + 1) n [] h
  rw [Nat.toDigits]
  exact h2

theorem toDigits_inj {n m : Nat} (h : Nat.toDigits 10 n = Nat.toDigits 10 m) :
    n = m := by
  have h1 := decFrom_toDigits n
  have h2 := decFrom_toDigits m
  rw [h] at h1
  omega

theorem natRepr_inj {n m : Nat} (h : Nat.repr n = Nat.repr m) : n = m := by
  apply toDigits_inj
  have h2 := congrArg String.data h
  simpa [Nat.repr, List.asString] using h2

theorem toDigitsCore_head :
    ∀ (fuel n : Nat) (ds : List Char), 0 < fuel → n < 10 ^ fuel →
    ∃ m rest, m < 10 ∧ Nat.toDigitsCore 10 fuel n ds = Nat.digitChar m :: rest := by
  intro fuel
  induction fuel with
  | zero => intro n ds h; omega
  | succ f ih =>
    intro n ds _ h
    rw [Nat.toDigitsCore]
    by_cases h0 : n / 10 = 0
    · exact ⟨n % 10, ds, Nat.mod_lt _ (by norm_num), by simp [h0]⟩
    · have hf : 0 < f := by
        by_contra hf
        have hf0 : f = 0 := by omega
        subst hf0
        simp only [pow_succ, pow_zero, one_mul] at h
        omega
      have hlt : n / 10 < 10 ^ f := by
        rw [Nat.div_lt_iff_lt_mul (by norm_num)]
        calc n < 10 ^ (f + 1) := h
          _ = 10 ^ f * 10 := by rw [pow_succ]
      obtain ⟨m, rest, hm, heq⟩ := ih (n / 10) (Nat.digitChar (n % 10) :: ds) hf hlt
      exact ⟨m, rest, hm, by simp [h0, heq]⟩

theorem natRepr_head (n : Nat) :
    ∃ m rest, m < 10 ∧ (Nat.repr n).data = Nat.digitChar m :: rest := by
  have h : n < 10 ^ (n + 1) := by
    calc n < 2 ^ n := Nat.lt_two_pow n
      _ ≤ 10 ^ n := Nat.pow_le_pow_left (by norm_num) n
      _ ≤ 10 ^ (n + 1) := Nat.pow_le_pow_right (by norm_num) (Nat.le_succ n)
  obtain ⟨m, rest, hm, heq⟩ := toDigitsCore_head (n + 1) n [] (by omega) h
  exact ⟨m, rest, hm, by simpa [Nat.repr, Nat.toDigits, List.asString] using heq⟩

theorem intToString_inj {a b : Int} (h : toString a = toString b) : a = b := by
  cases a with
  | ofNat n =>
    cases b with
    | ofNat m =>
      have h2 : Nat.repr n = Nat.repr m := h
      rw [natRepr_inj h2]
    | negSucc m =>
      exfalso
      have h2 : Nat.repr n = "-" ++ Nat.repr (m + 1) := h
      have h3 := congrArg String.data h2
      rw [String.data_append] at h3
      obtain ⟨d, rest, hd, heq⟩ := natRepr_head n
      rw [heq] at h3
      have h4 : Nat.digitChar d = Char.ofNat 45 := by
        have h5 : "-".data = [Char.ofNat 45] := rfl
        rw [h5] at h3
        exact List.head_eq_of_cons_eq h3
      exact digitChar_ne_dash hd h4
  | negSucc n =>
    cases b with
    | ofNat m =>
      exfalso
      have h2 : "-" ++ Nat.repr (n + 1) = Nat.repr m := h
      have h3 := congrArg String.data h2
      rw [String.data_append] at h3
      obtain ⟨d, rest, hd, heq⟩ := natRepr_head m
      rw [heq] at h3
      have h4 : Nat.digitChar d = Char.ofNat 45 := by
        have h5 : "-".data = [Char.ofNat 45] := rfl
        rw [h5] at h3
        exact (List.head_eq_of_cons_eq h3).symm
      exact digitChar_ne_dash hd h4
    | negSucc m =>
      have h2 : "-" ++ Nat.repr (n + 1) = "-" ++ Nat.repr (m + 1) := h
      have h3 := congrArg String.data h2
      rw [String.data_append, String.data_append] at h3
      have h4 := List.append_cancel_left h3
      have h5 : Nat.repr (n + 1) = Nat.repr (m + 1) := String.ext h4
      have h6 := natRepr_inj h5
      have h7 : n = m := by omega
      rw [h7]

theorem gkey_data (n : Int) (sfx : String) :
    ("G" ++ toString n ++ sfx).data = "G".data ++ (toString n).data ++ sfx.data := by
  rw [String.data_append, String.data_append]

theorem gkeyT1_inj {n m : Int}
    (h : "G" ++ toString n ++ "_T1" = "G" ++ toString m ++ "_T1") : n = m := by
  have h2 := congrArg String.data h
  rw [gkey_data, gkey_data] at h2
  have h3 := List.append_cancel_right h2
  have h4 := List.append_cancel_left h3
  exact intToString_inj (String.ext h4)

theorem gkeyT2_inj {n m : Int}
    (h : "G" ++ toString n ++ "_T2" = "G" ++ toString m ++ "_T2") : n = m := by
  have h2 := congrArg String.data h
  rw [gkey_data, gkey_data] at h2
  have h3 := List.append_cancel_right h2
  have h4 := List.append_cancel_left h3
  exact intToString_inj (String.ext h4)

theorem gkeyT1_ne_T2 (n m : Int) :
    "G" ++ toString n ++ "_T1" ≠ "G" ++ toString m ++ "_T2" := by
  intro h
  have h2 := congrArg String.data h
  rw [gkey_data, gkey_data] at h2
  have h3 := congrArg List.reverse h2
  simp only [List.reverse_append] at h3
  rw [show ("_T1".data).reverse = '1' :: ['T', '_'] from by decide,
    show ("_T2".data).reverse = '2' :: ['T', '_'] from by decide] at h3
  simp only [List.cons_append, List.append_assoc] at h3
  exact absurd (List.head_eq_of_cons_eq h3) (by decide)

theorem isSome_dget?_dinsert {α β : Type} [DecidableEq α] (k0 k : α) (v : β)
    (l : List (α × β)) :
    (dget? (dinsert k0 v l) k).isSome = true ↔
      k = k0 ∨ (dget? l k).isSome = true := by
  by_cases hk : k = k0
  · subst hk
    simp [dget?_dinsert_self]
  · rw [dget?_dinsert_ne _ _ _ _ hk]
    simp [hk]

theorem gbts_frame :
    ∀ (l : List (Int × (Json × Json))) (acc : List (String × Json)) (k : String),
    (∀ e ∈ l, k ≠ "G" ++ toString e.1 ++ "_T1" ∧ k ≠ "G" ++ toString e.1 ++ "_T2") →
    dget? (l.foldl (fun acc kv =>
      dinsert ("G" ++ toString kv.1 ++ "_T2") kv.2.2
        (dinsert ("G" ++ toString kv.1 ++ "_T1") kv.2.1 acc)) acc) k = dget? acc k := by
  intro l
  induction l with
  | nil => intro acc k _; rfl
  | cons e rest ih =>
    intro acc k h
    have he := h e (List.mem_cons_self _ _)
    rw [List.foldl_cons, ih _ k (fun e2 he2 => h e2 (List.mem_cons_of_mem _ he2)),
      dget?_dinsert_ne _ _ _ _ he.2, dget?_dinsert_ne _ _ _ _ he.1]

theorem gbts_keys :
    ∀ (l : List (Int × (Json × Json))) (acc : List (String × Json)) (k : String),
    (dget? (l.foldl (fun acc kv =>
      dinsert ("G" ++ toString kv.1 ++ "_T2") kv.2.2
        (dinsert ("G" ++ toString kv.1 ++ "_T1") kv.2.1 acc)) acc) k).isSome = true ↔
      ((dget? acc k).isSome = true ∨ ∃ n ∈ l.map Prod.fst,
        (k = "G" ++ toString n ++ "_T1" ∨ k = "G" ++ toString n ++ "_T2")) := by
  intro l
  induction l with
  | nil =>
    intro acc k
    simp
  | cons e rest ih =>
    intro acc k
    rw [List.foldl_cons, ih]
    rw [isSome_dget?_dinsert, isSome_dget?_dinsert]
    constructor
    · rintro ((h | (h | h)) | ⟨n, hn, h⟩)
      · exact Or.inr ⟨e.1, by simp, Or.inr h⟩
      · exact Or.inr ⟨e.1, by simp, Or.inl h⟩
      · exact Or.inl h
      · refine Or.inr ⟨n, ?_, h⟩
        rw [List.map_cons]
        exact List.mem_cons_of_mem _ hn
    · rintro (h | ⟨n, hn, h⟩)
      · exact Or.inl (Or.inr (Or.inr h))
      · rw [List.map_cons] at hn
        rcases List.mem_cons.mp hn with rfl | hn2
        · rcases h with h | h
          · exact Or.inl (Or.inr (Or.inl h))
          · exact Or.inl (Or.inl h)
        · exact Or.inr ⟨n, hn2, h⟩

theorem gbts_val :
    ∀ (l : List (Int × (Json × Json))) (acc : List (String × Json)),
    (l.map Prod.fst).Nodup →
    ∀ (n : Int) (t1 t2 : Json), (n, (t1, t2)) ∈ l →
    dget? (l.foldl (fun acc kv =>
      dinsert ("G" ++ toString kv.1 ++ "_T2") kv.2.2
        (dinsert ("G" ++ toString kv.1 ++ "_T1") kv.2.1 acc)) acc)
        ("G" ++ toString n ++ "_T1") = some t1 ∧
    dget? (l.foldl (fun acc kv =>
      dinsert ("G" ++ toString kv.1 ++ "_T2") kv.2.2
        (dinsert ("G" ++ toString kv.1 ++ "_T1") kv.2.1 acc)) acc)
        ("G" ++ toString n ++ "_T2") = some t2 := by
  intro l
  induction l with
  | nil =>
    intro acc _ n t1 t2 hmem
    simp at hmem
  | cons e rest ih =>
    intro acc hnd n t1 t2 hmem
    rw [List.map_cons, List.nodup_cons] at hnd
    rcases List.mem_cons.mp hmem with heq | hmem2
    · have hnr : ∀ e2 ∈ rest, e.1 ≠ e2.1 := by
        intro e2 he2 hcon
        exact hnd.1 (hcon ▸ List.mem_map_of_mem Prod.fst he2)
      subst heq
      have hframe : ∀ e2 ∈ rest,
          ("G" ++ toString n ++ "_T1" ≠ "G" ++ toString e2.1 ++ "_T1") ∧
          ("G" ++ toString n ++ "_T1" ≠ "G" ++ toString e2.1 ++ "_T2") := by
        intro e2 he2
        exact ⟨fun hcon => hnr e2 he2 (gkeyT1_inj hcon), gkeyT1_ne_T2 _ _⟩
      have hframe2 : ∀ e2 ∈ rest,
          ("G" ++ toString n ++ "_T2" ≠ "G" ++ toString e2.1 ++ "_T1") ∧
          ("G" ++ toString n ++ "_T2" ≠ "G" ++ toString e2.1 ++ "_T2") := by
        intro e2 he2
        exact ⟨fun hcon => (gkeyT1_ne_T2 e2.1 n) hcon.symm,
          fun hcon => hnr e2 he2 (gkeyT2_inj hcon)⟩
      constructor
      · rw [List.foldl_cons, gbts_frame rest _ _ hframe,
          dget?_dinsert_ne _ _ _ _ (gkeyT1_ne_T2 n n), dget?_dinsert_self]
      · rw [List.foldl_cons, gbts_frame rest _ _ hframe2, dget?_dinsert_self]
    · rw [List.foldl_cons]
      exact ih _ hnd.2 n t1 t2 hmem2

/-- C6: `get_bracket_text_sources` is a pure, deterministic function of the
`MATCHES` dict: its key set is exactly the set of strings `G{n}_T1`,
`G{n}_T2` for play orders `n` of the dict, each such key is mapped to the
corresponding side's resolved display name (possibly null), and equal
inputs give equal outputs. -/
theorem C6_bracket_display_mapping (MATCHES : List (Int × (Json × Json)))
    (hnd : (MATCHES.map Prod.fst).Nodup) :
    (∀ k : String,
      (dget? (get_bracket_text_sources MATCHES) k).isSome = true ↔
      ∃ n ∈ MATCHES.map Prod.fst,
        (k = "G" ++ toString n ++ "_T1" ∨ k = "G" ++ toString n ++ "_T2")) ∧
    (∀ (n : Int) (t1 t2 : Json), (n, (t1, t2)) ∈ MATCHES →
      dget? (get_bracket_text_sources MATCHES)
        ("G" ++ toString n ++ "_T1") = some t1 ∧
      dget? (get_bracket_text_sources MATCHES)
        ("G" ++ toString n ++ "_T2") = some t2) ∧
    (∀ M2, MATCHES = M2 →
      get_bracket_text_sources M2 = get_bracket_text_sources MATCHES) := by
  refine ⟨?_, ?_, ?_⟩
  · intro k
    have h := gbts_keys MATCHES [] k
    rw [show get_bracket_text_sources MATCHES = MATCHES.foldl (fun acc kv =>
      dinsert ("G" ++ toString kv.1 ++ "_T2") kv.2.2
        (dinsert ("G" ++ toString kv.1 ++ "_T1") kv.2.1 acc)) [] from rfl]
    rw [h]
    simp [dget?]
  · intro n t1 t2 hmem
    exact gbts_val MATCHES [] hnd n t1 t2 hmem
  · intro M2 hM
    rw [hM]

/-- Witness for C6 on a concrete two-game dict. -/
theorem C6_bracket_display_mapping_witness :
    (∀ k : String,
      (dget? (get_bracket_text_sources
        [(1, (Json.str "A", Json.null)), (2, (Json.str "B", Json.str "C"))]) k).isSome = true ↔
      ∃ n ∈ ([(1, (Json.str "A", Json.null)),
        (2, (Json.str "B", Json.str "C"))] : List (Int × (Json × Json))).map Prod.fst,
        (k = "G" ++ toString n ++ "_T1" ∨ k = "G" ++ toString n ++ "_T2")) ∧
    (∀ (n : Int) (t1 t2 : Json),
      (n, (t1, t2)) ∈ [(1, (Json.str "A", Json.null)), (2, (Json.str "B", Json.str "C"))] →
      dget? (get_bracket_text_sources
        [(1, (Json.str "A", Json.null)), (2, (Json.str "B", Json.str "C"))])
        ("G" ++ toString n ++ "_T1") = some t1 ∧
      dget? (get_bracket_text_sources
        [(1, (Json.str "A", Json.null)), (2, (Json.str "B", Json.str "C"))])
        ("G" ++ toString n ++ "_T2") = some t2) ∧
    (∀ M2, [(1, (Json.str "A", Json.null)), (2, (Json.str "B", Json.str "C"))] = M2 →
      get_bracket_text_sources M2 = get_bracket_text_sources
        [(1, (Json.str "A", Json.null)), (2, (Json.str "B", Json.str "C"))]) :=
  C6_bracket_display_mapping
    [(1, (Json.str "A", Json.null)), (2, (Json.str "B", Json.str "C"))] (by decide)

/-! ## OBS synchronizer lemmas (for claims C1 and C8) -/

theorem get?_set_ne2 {α : Type} (l : List α) (i j : Nat) (a : α) (h : j ≠ i) :
    (l.set i a).get? j = l.get? j := by
  rw [List.get?_eq_getElem?, List.get?_eq_getElem?]
  exact List.getElem?_set_ne (fun hc => h hc.symm)

theorem get?_set_self2 {α : Type} {l : List α} {i : Nat} {b : α} (a : α)
    (h : l.get? i = some b) : (l.set i a).get? i = some a := by
  have hlt : i < l.length := by
    rw [List.get?_eq_getElem?] at h
    exact (List.getElem?_eq_some.mp h).1
  rw [List.get?_eq_getElem?]
  exact List.getElem?_set_self hlt

theorem set_eq_self {α : Type} : ∀ (l : List α) (i : Nat) (a : α),
    l.get? i = some a → l.set i a = l := by
  intro l
  induction l with
  | nil => intro i a h; simp at h
  | cons b rest ih =>
    intro i a h
    cases i with
    | zero =>
      simp only [List.get?] at h
      cases h
      rfl
    | succ n =>
      simp only [List.get?] at h
      simp [List.set, ih n a h]

theorem countP_set {α : Type} (p : α → Bool) :
    ∀ (l : List α) (i : Nat) (a b : α), l.get? i = some b → p b = p a →
    List.countP p (l.set i a) = List.countP p l := by
  intro l
  induction l with
  | nil => intro i a b h; simp at h
  | cons c rest ih =>
    intro i a b h hp
    cases i with
    | zero =>
      simp only [List.get?] at h
      cases h
      simp only [List.set, List.countP_cons, hp]
    | succ n =>
      simp only [List.get?] at h
      simp only [List.set, List.countP_cons, ih n a b h hp]

theorem findIdxByName_some {l : List Source} {nm : String} {i : Nat}
    (h : findIdxByName l nm = some i) :
    ∃ src, l.get? i = some src ∧ src.name = nm := by
  induction l generalizing i with
  | nil => simp [findIdxByName] at h
  | cons s rest ih =>
    rw [findIdxByName] at h
    by_cases hs : s.name = nm
    · simp only [hs, if_true] at h
      cases h
      exact ⟨s, rfl, hs⟩
    · simp only [hs, if_false] at h
      cases hi : findIdxByName rest nm with
      | none => rw [hi] at h; exact Option.noConfusion h
      | some j =>
        rw [hi] at h
        have h2 : j + 1 = i := by simpa using h
        subst h2
        obtain ⟨src, hget, hnm⟩ := ih hi
        exact ⟨src, hget, hnm⟩

theorem findIdxByName_set_of_ne (nm : String) :
    ∀ (l : List Source) (i : Nat) (src a : Source),
    l.get? i = some src → src.name ≠ nm → a.name ≠ nm →
    findIdxByName (l.set i a) nm = findIdxByName l nm := by
  intro l
  induction l with
  | nil => intro i src a h; simp at h
  | cons s rest ih =>
    intro i src a hget hsrc ha
    cases i with
    | zero =>
      simp only [List.get?] at hget
      cases hget
      simp only [List.set, findIdxByName, ha, hsrc, if_false]
    | succ n =>
      simp only [List.get?] at hget
      simp only [List.set, findIdxByName, ih n src a hget hsrc ha]

theorem findIdxByName_set_same_name (nm : String) :
    ∀ (l : List Source) (i : Nat) (src a : Source),
    l.get? i = some src → a.name = src.name →
    findIdxByName (l.set i a) nm = findIdxByName l nm := by
  intro l
  induction l with
  | nil => intro i src a h; simp at h
  | cons s rest ih =>
    intro i src a hget ha
    cases i with
    | zero =>
      simp only [List.get?] at hget
      cases hget
      simp only [List.set, findIdxByName, ha]
    | succ n =>
      simp only [List.get?] at hget
      simp only [List.set, findIdxByName, ih n src a hget ha]

/-- Eliminating a unique prefix match: the witness index and source, the
result of the enumeration search, and the result of the name lookup. -/
theorem uniqueMatch_elim {l : List Source} {pre : String}
    (h : uniqueMatch l pre) :
    ∃ i src, l.get? i = some src ∧ matchesName src.name pre = true ∧
      (∀ j src2, l.get? j = some src2 → matchesName src2.name pre = true → j = i) ∧
      l.find? (fun s => matchesName s.name pre) = some src ∧
      findIdxByName l src.name = some i := by
  unfold uniqueMatch at h
  induction l with
  | nil => simp at h
  | cons s rest ih =>
    rw [List.countP_cons] at h
    by_cases hms : matchesName s.name pre = true
    · simp only [hms, if_true] at h
      have hrest : rest.countP (fun s => matchesName s.name pre) = 0 := by omega
      refine ⟨0, s, rfl, hms, ?_, ?_, ?_⟩
      · intro j src2 hget hm2
        cases j with
        | zero => rfl
        | succ n =>
          exfalso
          simp only [List.get?] at hget
          have hmem := List.get?_mem hget
          exact absurd hm2 (by simpa using List.countP_eq_zero.mp hrest src2 hmem)
      · rw [List.find?_cons]
        simp [hms]
      · rw [findIdxByName]
        rw [if_pos rfl]
    · simp only [hms, if_false, add_zero] at h
      obtain ⟨i, src, hget, hm, huniq, hfind, hidx⟩ := ih h
      refine ⟨i + 1, src, hget, hm, ?_, ?_, ?_⟩
      · intro j src2 hget2 hm2
        cases j with
        | zero =>
          simp only [List.get?] at hget2
          cases hget2
          exact absurd hm2 hms
        | succ n =>
          simp only [List.get?] at hget2
          rw [huniq n src2 hget2 hm2]
      · rw [List.find?_cons]
        simp only [hms]
        exact hfind
      · rw [findIdxByName]
        have hne : s.name ≠ src.name := by
          intro hcon
          rw [← hcon] at hm
          exact hms hm
        simp only [hne, if_false, hidx]
        rfl

theorem not_pre_of_incomp {s p q : String} (hp : pyStartsWith s p = true)
    (hinc : incompPre p q = true) : pyStartsWith s q = false := by
  cases hq : pyStartsWith s q
  · rfl
  · exfalso
    unfold pyStartsWith at hp hq
    have h1 : p.data <+: s.data := List.isPrefixOf_iff_prefix.mp hp
    have h2 : q.data <+: s.data := List.isPrefixOf_iff_prefix.mp hq
    unfold incompPre at hinc
    rcases List.prefix_or_prefix_of_prefix h1 h2 with h3 | h3
    · rw [List.isPrefixOf_iff_prefix.mpr h3] at hinc
      simp at hinc
    · rw [List.isPrefixOf_iff_prefix.mpr h3] at hinc
      simp at hinc

theorem append_ne_empty_of_left {p s : String} (hp : p ≠ "") : p ++ s ≠ "" := by
  intro h
  apply hp
  have h2 := congrArg String.data h
  rw [String.data_append] at h2
  have h3 : p.data = [] := (List.append_eq_nil.mp h2).1
  exact String.ext (by simp [h3])

theorem pyStartsWith_self_append (p s : String) :
    pyStartsWith (p ++ s) p = true := by
  unfold pyStartsWith
  rw [String.data_append]
  exact List.isPrefixOf_iff_prefix.mpr (List.prefix_append _ _)

theorem pyStartsWith_self (p : String) : pyStartsWith p p = true := by
  unfold pyStartsWith
  exact List.isPrefixOf_iff_prefix.mpr (List.prefix_refl _)

theorem bNewName_matches {pre : String} (hpre : pre ≠ "") (pn : Json) :
    matchesName (bNewName pre pn) pre = true := by
  unfold bNewName matchesName
  by_cases ht : pn.truthy
  · simp only [ht, if_true]
    rw [isEmpty_false_of_ne (append_ne_empty_of_left (append_ne_empty_of_left hpre)),
      show pre ++ " " ++ pn.pyStr = pre ++ (" " ++ pn.pyStr) from String.append_assoc _ _ _,
      pyStartsWith_self_append]
    rfl
  · simp only [ht, Bool.false_eq_true, if_false]
    rw [isEmpty_false_of_ne hpre, pyStartsWith_self]
    rfl

theorem matchesName_incomp {nm pre q : String}
    (h : matchesName nm pre = true) (hinc : incompPre pre q = true) :
    matchesName nm q = false := by
  unfold matchesName at h ⊢
  rw [Bool.and_eq_true] at h
  rw [not_pre_of_incomp h.2 hinc]
  simp

theorem incompPre_ne_empty {p q : String} (h : incompPre p q = true) :
    p ≠ "" ∧ q ≠ "" := by
  constructor
  · intro hc
    subst hc
    unfold incompPre at h
    simp [List.isPrefixOf_iff_prefix] at h
  · intro hc
    subst hc
    unfold incompPre at h
    simp [List.isPrefixOf_iff_prefix] at h

theorem addLog_sources (st : ObsState) (m : String) :
    (st.addLog m).sources = st.sources := rfl

theorem set_text_sources_cases (st : ObsState) (nm txt : String) :
    (nm.isEmpty = true ∧ (set_text_source st nm txt).sources = st.sources) ∨
    (findIdxByName st.sources nm = none ∧
      (set_text_source st nm txt).sources = st.sources) ∨
    ∃ idx src, findIdxByName st.sources nm = some idx ∧
      st.sources.get? idx = some src ∧ src.name = nm ∧
      (set_text_source st nm txt).sources =
        st.sources.set idx ⟨src.name, src.url, txt⟩ := by
  unfold set_text_source
  by_cases he : nm.isEmpty
  · exact Or.inl ⟨he, by simp [he]⟩
  · simp only [he, Bool.false_eq_true, if_false]
    cases hidx : findIdxByName st.sources nm with
    | none => exact Or.inr (Or.inl ⟨rfl, rfl⟩)
    | some idx =>
      obtain ⟨src, hget, hnm⟩ := findIdxByName_some hidx
      right
      right
      refine ⟨idx, src, rfl, hget, hnm, ?_⟩
      show setTextAt st.sources idx txt = _
      unfold setTextAt
      rw [hget]

theorem set_browser_sources_cases (st : ObsState) (pre : String) (pn tw : Json) :
    (set_browser_source_url st pre pn tw).sources = st.sources ∨
    ∃ idx src, st.sources.get? idx = some src ∧ matchesName src.name pre = true ∧
      (set_browser_source_url st pre pn tw).sources =
        st.sources.set idx ⟨bNewName pre pn, bNewUrl tw, src.text⟩ := by
  unfold set_browser_source_url
  by_cases he : pre.isEmpty
  · exact Or.inl (by simp [he])
  · simp only [he, Bool.false_eq_true, if_false]
    cases hfind : st.sources.find? (fun s => matchesName s.name pre) with
    | none =>
      left
      unfold find_source_by_pre
      rw [hfind]
      rfl
    | some fsrc =>
      have hf : find_source_by_pre st.sources pre = some fsrc.name := by
        unfold find_source_by_pre
        rw [hfind]
        rfl
      simp only [hf, addLog_sources]
      cases hidx : findIdxByName st.sources fsrc.name with
      | none => exact Or.inl rfl
      | some idx =>
        obtain ⟨src, hget, hnm⟩ := findIdxByName_some hidx
        right
        refine ⟨idx, src, hget, ?_, ?_⟩
        · rw [hnm]
          have h5 := List.find?_some hfind
          simpa using h5
        · show setUrlAt (renameAt st.sources idx (bNewName pre pn)) idx
            (bNewUrl tw) = _
          have hr : renameAt st.sources idx (bNewName pre pn) =
              st.sources.set idx ⟨bNewName pre pn, src.url, src.text⟩ := by
            unfold renameAt
            rw [hget]
          rw [hr]
          unfold setUrlAt
          rw [get?_set_self2 ⟨bNewName pre pn, src.url, src.text⟩ hget]
          simp only [List.set_set]

theorem set_text_source_frame (st : ObsState) (nm txt : String) {i : Nat}
    {src : Source} (hget : st.sources.get? i = some src) (hne : src.name ≠ nm) :
    (set_text_source st nm txt).sources.get? i = some src := by
  rcases set_text_sources_cases st nm txt with ⟨_, h⟩ | ⟨_, h⟩ |
    ⟨idx, src2, hidx, hget2, hnm2, h⟩
  · rw [h]; exact hget
  · rw [h]; exact hget
  · rw [h]
    have hne2 : i ≠ idx := by
      intro hcon
      subst hcon
      rw [hget] at hget2
      cases hget2
      exact hne hnm2
    rw [get?_set_ne2 _ _ _ _ hne2]
    exact hget

theorem set_browser_source_frame (st : ObsState) (pre : String) (pn tw : Json)
    {i : Nat} {src : Source} (hget : st.sources.get? i = some src)
    (hns : pyStartsWith src.name pre = false) :
    (set_browser_source_url st pre pn tw).sources.get? i = some src := by
  rcases set_browser_sources_cases st pre pn tw with h | ⟨idx, src2, hget2, hm2, h⟩
  · rw [h]; exact hget
  · rw [h]
    have hne2 : i ≠ idx := by
      intro hcon
      subst hcon
      rw [hget] at hget2
      cases hget2
      rw [matchesName, Bool.and_eq_true] at hm2
      rw [hns] at hm2
      exact Bool.noConfusion hm2.2
    rw [get?_set_ne2 _ _ _ _ hne2]
    exact hget

theorem wfPos_ok {pos : Option (List Json)} (h : wfPos pos = true) :
    ∃ p t, get_player_name pos = .ok p ∧ get_twitch_link pos = .ok t := by
  cases pos with
  | none => exact ⟨.null, .null, rfl, rfl⟩
  | some l =>
    rw [wfPos, decide_eq_true_eq] at h
    have h0 : 0 < l.length := by omega
    have h1 : 1 < l.length := by omega
    refine ⟨l.get ⟨0, h0⟩, l.get ⟨1, h1⟩, ?_, ?_⟩
    · show (match l.get? 0 with
        | some v => Except.ok v
        | none => Except.error PyErr.indexError) = Except.ok (l.get ⟨0, h0⟩)
      rw [List.get?_eq_getElem?, List.getElem?_eq_getElem h0]
      rfl
    · show (match l.get? 1 with
        | some v => Except.ok v
        | none => Except.error PyErr.indexError) = Except.ok (l.get ⟨1, h1⟩)
      rw [List.get?_eq_getElem?, List.getElem?_eq_getElem h1]
      rfl

theorem apply_team_ok (st : ObsState) (team : Team) (ns hp mp fp bp : String)
    (hwf : wfTeamArity team = true) :
    ∃ ph th pm tm pf tf pb tb,
      get_player_name team.helm = .ok ph ∧ get_twitch_link team.helm = .ok th ∧
      get_player_name team.mc = .ok pm ∧ get_twitch_link team.mc = .ok tm ∧
      get_player_name team.flex = .ok pf ∧ get_twitch_link team.flex = .ok tf ∧
      get_player_name team.bilge = .ok pb ∧ get_twitch_link team.bilge = .ok tb ∧
      apply_team_to_sources st team ns hp mp fp bp = .ok
        (set_browser_source_url (set_browser_source_url (set_browser_source_url
          (set_browser_source_url (set_text_source st ns team.name) hp ph th)
          mp pm tm) fp pf tf) bp pb tb) := by
  unfold wfTeamArity at hwf
  simp only [Bool.and_eq_true] at hwf
  obtain ⟨⟨⟨hh, hf⟩, hm⟩, hb⟩ := hwf
  obtain ⟨ph, th, hph, hth⟩ := wfPos_ok hh
  obtain ⟨pm, tm, hpm, htm⟩ := wfPos_ok hm
  obtain ⟨pf, tf, hpf, htf⟩ := wfPos_ok hf
  obtain ⟨pb, tb, hpb, htb⟩ := wfPos_ok hb
  refine ⟨ph, th, pm, tm, pf, tf, pb, tb, hph, hth, hpm, htm, hpf, htf, hpb, htb, ?_⟩
  unfold apply_team_to_sources
  rw [hph, hth, hpm, htm, hpf, htf, hpb, htb]
  simp

/-! ## Claim C1 -/

theorem side2_facts {src : Source} (h : isSide2Source src = true) :
    src.name ≠ T1_NAME_SOURCE ∧
    pyStartsWith src.name T1_HELM_PRE = false ∧
    pyStartsWith src.name T1_MC_PRE = false ∧
    pyStartsWith src.name T1_FLEX_PRE = false ∧
    pyStartsWith src.name T1_BILGE_PRE = false := by
  unfold isSide2Source at h
  simp only [Bool.or_eq_true, beq_iff_eq] at h
  rcases h with ((((h | h) | h) | h) | h)
  · rw [h]
    exact ⟨by decide, by decide, by decide, by decide, by decide⟩
  · refine ⟨?_, not_pre_of_incomp h (by decide), not_pre_of_incomp h (by decide),
      not_pre_of_incomp h (by decide), not_pre_of_incomp h (by decide)⟩
    intro hc
    rw [hc] at h
    exact absurd h (by decide)
  · refine ⟨?_, not_pre_of_incomp h (by decide), not_pre_of_incomp h (by decide),
      not_pre_of_incomp h (by decide), not_pre_of_incomp h (by decide)⟩
    intro hc
    rw [hc] at h
    exact absurd h (by decide)
  · refine ⟨?_, not_pre_of_incomp h (by decide), not_pre_of_incomp h (by decide),
      not_pre_of_incomp h (by decide), not_pre_of_incomp h (by decide)⟩
    intro hc
    rw [hc] at h
    exact absurd h (by decide)
  · refine ⟨?_, not_pre_of_incomp h (by decide), not_pre_of_incomp h (by decide),
      not_pre_of_incomp h (by decide), not_pre_of_incomp h (by decide)⟩
    intro hc
    rw [hc] at h
    exact absurd h (by decide)

theorem side1_facts {src : Source} (h : isSide1Source src = true) :
    src.name ≠ T2_NAME_SOURCE ∧
    pyStartsWith src.name T2_HELM_PRE = false ∧
    pyStartsWith src.name T2_MC_PRE = false ∧
    pyStartsWith src.name T2_FLEX_PRE = false ∧
    pyStartsWith src.name T2_BILGE_PRE = false := by
  unfold isSide1Source at h
  simp only [Bool.or_eq_true, beq_iff_eq] at h
  rcases h with ((((h | h) | h) | h) | h)
  · rw [h]
    exact ⟨by decide, by decide, by decide, by decide, by decide⟩
  · refine ⟨?_, not_pre_of_incomp h (by decide), not_pre_of_incomp h (by decide),
      not_pre_of_incomp h (by decide), not_pre_of_incomp h (by decide)⟩
    intro hc
    rw [hc] at h
    exact absurd h (by decide)
  · refine ⟨?_, not_pre_of_incomp h (by decide), not_pre_of_incomp h (by decide),
      not_pre_of_incomp h (by decide), not_pre_of_incomp h (by decide)⟩
    intro hc
    rw [hc] at h
    exact absurd h (by decide)
  · refine ⟨?_, not_pre_of_incomp h (by decide), not_pre_of_incomp h (by decide),
      not_pre_of_incomp h (by decide), not_pre_of_incomp h (by decide)⟩
    intro hc
    rw [hc] at h
    exact absurd h (by decide)
  · refine ⟨?_, not_pre_of_incomp h (by decide), not_pre_of_incomp h (by decide),
      not_pre_of_incomp h (by decide), not_pre_of_incomp h (by decide)⟩
    intro hc
    rw [hc] at h
    exact absurd h (by decide)

/-- `set_text_source` only appends to the log. -/
theorem set_text_source_log (st : ObsState) (nm txt : String) :
    ∃ t, (set_text_source st nm txt).log = st.log ++ t := by
  unfold set_text_source
  by_cases he : nm.isEmpty
  · exact ⟨[], by simp [he]⟩
  · simp only [he, Bool.false_eq_true, if_false]
    cases hidx : findIdxByName st.sources nm with
    | none => exact ⟨["[Tournament] Text source not found: " ++ nm], rfl⟩
    | some idx =>
      exact ⟨["[Tournament] Updated text " ++ nm ++ " -> " ++ txt], rfl⟩

/-- `set_browser_source_url` only appends to the log. -/
theorem set_browser_source_log (st : ObsState) (pre : String) (pn tw : Json) :
    ∃ t, (set_browser_source_url st pre pn tw).log = st.log ++ t := by
  unfold set_browser_source_url
  by_cases he : pre.isEmpty
  · exact ⟨[], by simp [he]⟩
  · simp only [he, Bool.false_eq_true, if_false]
    cases hfind : st.sources.find? (fun s => matchesName s.name pre) with
    | none =>
      refine ⟨["[Tournament] Found Source " ++ optNameStr none ++ " from " ++ pre,
        "[Tournament] No source found with prefix: " ++ pre], ?_⟩
      unfold find_source_by_pre
      rw [hfind]
      simp [ObsState.addLog]
    | some fsrc =>
      have hf : find_source_by_pre st.sources pre = some fsrc.name := by
        unfold find_source_by_pre
        rw [hfind]
        rfl
      simp only [hf, addLog_sources]
      cases hidx : findIdxByName st.sources fsrc.name with
      | none =>
        refine ⟨["[Tournament] Found Source " ++ optNameStr (some fsrc.name) ++
          " from " ++ pre, "[Tournament] Source not found: " ++ fsrc.name], ?_⟩
        simp [ObsState.addLog]
      | some idx =>
        refine ⟨["[Tournament] Found Source " ++ optNameStr (some fsrc.name) ++
          " from " ++ pre, bUrlLog (bNewName pre pn) tw], ?_⟩
        simp [ObsState.addLog]

/-- Any line already in the log survives the five-operation chain of
`apply_team_to_sources`. -/
theorem apply_chain_log_mono (st : ObsState) (ns txt hp mp fp bp : String)
    (ph th pm tm pf tf pb tb : Json) {d : String} (hd : d ∈ st.log) :
    d ∈ (set_browser_source_url (set_browser_source_url (set_browser_source_url
      (set_browser_source_url (set_text_source st ns txt) hp ph th)
      mp pm tm) fp pf tf) bp pb tb).log := by
  obtain ⟨t0, e0⟩ := set_text_source_log st ns txt
  obtain ⟨t1, e1⟩ := set_browser_source_log (set_text_source st ns txt) hp ph th
  obtain ⟨t2, e2⟩ := set_browser_source_log
    (set_browser_source_url (set_text_source st ns txt) hp ph th) mp pm tm
  obtain ⟨t3, e3⟩ := set_browser_source_log
    (set_browser_source_url (set_browser_source_url (set_text_source st ns txt)
      hp ph th) mp pm tm) fp pf tf
  obtain ⟨t4, e4⟩ := set_browser_source_log
    (set_browser_source_url (set_browser_source_url (set_browser_source_url
      (set_text_source st ns txt) hp ph th) mp pm tm) fp pf tf) bp pb tb
  rw [e4, e3, e2, e1, e0]
  simp [hd]

/-- C1: with one selection a roster key (carrying a well-formed team, cf.
C9's arity precondition) and the other selection absent from the roster,
`execute_transition` updates all of the found side's sources via
`apply_team_to_sources`, leaves every source of the missing side exactly
as it was, logs a diagnostic naming the missing team, and raises no
exception.  First conjunct: the found team on side 1, side 2 missing;
second conjunct, symmetrically: side 1 missing, the found team on side 2. -/
theorem C1_execute_transition_missing_side (st : ObsState)
    (roster : List (String × Team)) (known_name missing_name : String)
    (team : Team)
    (h1 : get_team roster known_name = some team)
    (h2 : get_team roster missing_name = none)
    (hwf : wfTeamArity team = true) :
    (∃ st1,
      apply_team_to_sources
        (st.addLog ("[Tournament] Executing transition: " ++ known_name ++
          " vs " ++ missing_name))
        team T1_NAME_SOURCE T1_HELM_PRE T1_MC_PRE T1_FLEX_PRE T1_BILGE_PRE =
        .ok st1 ∧
      execute_transition st roster known_name missing_name = .ok
        ((st1.addLog ("[Tournament] Team 2 not found in roster: " ++
          missing_name)).addLog "[Tournament] Transition complete!") ∧
      (∀ i src, st.sources.get? i = some src → isSide2Source src = true →
        st1.sources.get? i = some src) ∧
      ("[Tournament] Team 2 not found in roster: " ++ missing_name) ∈
        ((st1.addLog ("[Tournament] Team 2 not found in roster: " ++
          missing_name)).addLog "[Tournament] Transition complete!").log) ∧
    (∃ st2,
      apply_team_to_sources
        ((st.addLog ("[Tournament] Executing transition: " ++ missing_name ++
          " vs " ++ known_name)).addLog
          ("[Tournament] Team 1 not found in roster: " ++ missing_name))
        team T2_NAME_SOURCE T2_HELM_PRE T2_MC_PRE T2_FLEX_PRE T2_BILGE_PRE =
        .ok st2 ∧
      execute_transition st roster missing_name known_name = .ok
        (st2.addLog "[Tournament] Transition complete!") ∧
      (∀ i src, st.sources.get? i = some src → isSide1Source src = true →
        st2.sources.get? i = some src) ∧
      ("[Tournament] Team 1 not found in roster: " ++ missing_name) ∈
        (st2.addLog "[Tournament] Transition complete!").log) := by
  constructor
  · obtain ⟨ph, th, pm, tm, pf, tf, pb, tb, hph, hth, hpm, htm, hpf, htf, hpb,
      htb, happ⟩ :=
      apply_team_ok
        (st.addLog ("[Tournament] Executing transition: " ++ known_name ++
          " vs " ++ missing_name))
        team T1_NAME_SOURCE T1_HELM_PRE T1_MC_PRE T1_FLEX_PRE T1_BILGE_PRE hwf
    refine ⟨_, happ, ?_, ?_, ?_⟩
    · unfold execute_transition
      simp only [h1, h2, happ, except_bind_ok, except_pure_def]
    · intro i src hget hs2
      obtain ⟨hne, hH, hM, hF, hB⟩ := side2_facts hs2
      have hget0 : (st.addLog ("[Tournament] Executing transition: " ++
          known_name ++ " vs " ++ missing_name)).sources.get? i = some src := hget
      have g1 := set_text_source_frame _ T1_NAME_SOURCE team.name hget0 hne
      have g2 := set_browser_source_frame _ T1_HELM_PRE ph th g1 hH
      have g3 := set_browser_source_frame _ T1_MC_PRE pm tm g2 hM
      have g4 := set_browser_source_frame _ T1_FLEX_PRE pf tf g3 hF
      have g5 := set_browser_source_frame _ T1_BILGE_PRE pb tb g4 hB
      exact g5
    · simp [ObsState.addLog]
  · obtain ⟨ph, th, pm, tm, pf, tf, pb, tb, hph, hth, hpm, htm, hpf, htf, hpb,
      htb, happ⟩ :=
      apply_team_ok
        ((st.addLog ("[Tournament] Executing transition: " ++ missing_name ++
          " vs " ++ known_name)).addLog
          ("[Tournament] Team 1 not found in roster: " ++ missing_name))
        team T2_NAME_SOURCE T2_HELM_PRE T2_MC_PRE T2_FLEX_PRE T2_BILGE_PRE hwf
    refine ⟨_, happ, ?_, ?_, ?_⟩
    · unfold execute_transition
      simp only [h1, h2, happ, except_bind_ok, except_pure_def]
    · intro i src hget hs1
      obtain ⟨hne, hH, hM, hF, hB⟩ := side1_facts hs1
      have hget0 : ((st.addLog ("[Tournament] Executing transition: " ++
          missing_name ++ " vs " ++ known_name)).addLog
          ("[Tournament] Team 1 not found in roster: " ++
            missing_name)).sources.get? i = some src := hget
      have g1 := set_text_source_frame _ T2_NAME_SOURCE team.name hget0 hne
      have g2 := set_browser_source_frame _ T2_HELM_PRE ph th g1 hH
      have g3 := set_browser_source_frame _ T2_MC_PRE pm tm g2 hM
      have g4 := set_browser_source_frame _ T2_FLEX_PRE pf tf g3 hF
      have g5 := set_browser_source_frame _ T2_BILGE_PRE pb tb g4 hB
      exact g5
    · have hd : ("[Tournament] Team 1 not found in roster: " ++ missing_name) ∈
          ((st.addLog ("[Tournament] Executing transition: " ++ missing_name ++
            " vs " ++ known_name)).addLog
            ("[Tournament] Team 1 not found in roster: " ++ missing_name)).log := by
        simp [ObsState.addLog]
      have hmem := apply_chain_log_mono
        ((st.addLog ("[Tournament] Executing transition: " ++ missing_name ++
          " vs " ++ known_name)).addLog
          ("[Tournament] Team 1 not found in roster: " ++ missing_name))
        T2_NAME_SOURCE team.name T2_HELM_PRE T2_MC_PRE T2_FLEX_PRE T2_BILGE_PRE
        ph th pm tm pf tf pb tb hd
      exact List.mem_append_left _ hmem

/-- Witness for C1: the spec §8 scenario — roster contains only `Alpha`,
selection `Ghost` is unknown; in each direction the missing side's sources
stay untouched and the diagnostic is logged. -/
theorem C1_execute_transition_missing_side_witness :
    (∃ st1,
      apply_team_to_sources
        ((⟨[⟨"Team 1", "", ""⟩, ⟨"T1H - old", "u", ""⟩, ⟨"Team 2", "", "prev"⟩,
          ⟨"T2H - y", "pu", ""⟩], []⟩ : ObsState).addLog
          ("[Tournament] Executing transition: " ++ "Alpha" ++ " vs " ++ "Ghost"))
        (⟨"Alpha", some [Json.str "X", Json.str "x1"], none, none, none⟩ : Team)
        T1_NAME_SOURCE T1_HELM_PRE T1_MC_PRE T1_FLEX_PRE T1_BILGE_PRE = .ok st1 ∧
      execute_transition
        (⟨[⟨"Team 1", "", ""⟩, ⟨"T1H - old", "u", ""⟩, ⟨"Team 2", "", "prev"⟩,
          ⟨"T2H - y", "pu", ""⟩], []⟩ : ObsState)
        [("Alpha", ⟨"Alpha", some [Json.str "X", Json.str "x1"], none, none, none⟩)]
        "Alpha" "Ghost" = .ok
        ((st1.addLog ("[Tournament] Team 2 not found in roster: " ++ "Ghost")).addLog
          "[Tournament] Transition complete!") ∧
      (∀ i src,
        (⟨[⟨"Team 1", "", ""⟩, ⟨"T1H - old", "u", ""⟩, ⟨"Team 2", "", "prev"⟩,
          ⟨"T2H - y", "pu", ""⟩], []⟩ : ObsState).sources.get? i = some src →
        isSide2Source src = true → st1.sources.get? i = some src) ∧
      ("[Tournament] Team 2 not found in roster: " ++ "Ghost") ∈
        ((st1.addLog ("[Tournament] Team 2 not found in roster: " ++ "Ghost")).addLog
          "[Tournament] Transition complete!").log) ∧
    (∃ st2,
      apply_team_to_sources
        (((⟨[⟨"Team 1", "", ""⟩, ⟨"T1H - old", "u", ""⟩, ⟨"Team 2", "", "prev"⟩,
          ⟨"T2H - y", "pu", ""⟩], []⟩ : ObsState).addLog
          ("[Tournament] Executing transition: " ++ "Ghost" ++ " vs " ++ "Alpha")).addLog
          ("[Tournament] Team 1 not found in roster: " ++ "Ghost"))
        (⟨"Alpha", some [Json.str "X", Json.str "x1"], none, none, none⟩ : Team)
        T2_NAME_SOURCE T2_HELM_PRE T2_MC_PRE T2_FLEX_PRE T2_BILGE_PRE = .ok st2 ∧
      execute_transition
        (⟨[⟨"Team 1", "", ""⟩, ⟨"T1H - old", "u", ""⟩, ⟨"Team 2", "", "prev"⟩,
          ⟨"T2H - y", "pu", ""⟩], []⟩ : ObsState)
        [("Alpha", ⟨"Alpha", some [Json.str "X", Json.str "x1"], none, none, none⟩)]
        "Ghost" "Alpha" = .ok (st2.addLog "[Tournament] Transition complete!") ∧
      (∀ i src,
        (⟨[⟨"Team 1", "", ""⟩, ⟨"T1H - old", "u", ""⟩, ⟨"Team 2", "", "prev"⟩,
          ⟨"T2H - y", "pu", ""⟩], []⟩ : ObsState).sources.get? i = some src →
        isSide1Source src = true → st2.sources.get? i = some src) ∧
      ("[Tournament] Team 1 not found in roster: " ++ "Ghost") ∈
        (st2.addLog "[Tournament] Transition complete!").log) :=
  C1_execute_transition_missing_side
    (⟨[⟨"Team 1", "", ""⟩, ⟨"T1H - old", "u", ""⟩, ⟨"Team 2", "", "prev"⟩,
      ⟨"T2H - y", "pu", ""⟩], []⟩ : ObsState)
    [("Alpha", ⟨"Alpha", some [Json.str "X", Json.str "x1"], none, none, none⟩)]
    "Alpha" "Ghost"
    ⟨"Alpha", some [Json.str "X", Json.str "x1"], none, none, none⟩
    (by rfl) (by rfl) (by rfl)

/-! ## Claim C8 -/

theorem incompPre_symm {p q : String} (h : incompPre p q = true) :
    incompPre q p = true := by
  unfold incompPre at h ⊢
  rw [Bool.and_eq_true] at h
  rw [Bool.and_eq_true]
  exact ⟨h.2, h.1⟩

/-- With a unique prefix match, `set_browser_source_url` renames the match
and sets its url, leaving everything else in place. -/
theorem set_browser_unique_char (st : ObsState) (pre : String) (pn tw : Json)
    (hpre : pre ≠ "") {i0 : Nat} {src0 : Source}
    (hget : st.sources.get? i0 = some src0)
    (hfind : st.sources.find? (fun s => matchesName s.name pre) = some src0)
    (hidx : findIdxByName st.sources src0.name = some i0) :
    (set_browser_source_url st pre pn tw).sources =
      st.sources.set i0 ⟨bNewName pre pn, bNewUrl tw, src0.text⟩ := by
  have he : pre.isEmpty = false := isEmpty_false_of_ne hpre
  unfold set_browser_source_url
  simp only [he, Bool.false_eq_true, if_false]
  have hf : find_source_by_pre st.sources pre = some src0.name := by
    unfold find_source_by_pre
    rw [hfind]
    rfl
  simp only [hf, addLog_sources, hidx]
  show setUrlAt (renameAt st.sources i0 (bNewName pre pn)) i0 (bNewUrl tw) = _
  have hr : renameAt st.sources i0 (bNewName pre pn) =
      st.sources.set i0 ⟨bNewName pre pn, src0.url, src0.text⟩ := by
    unfold renameAt
    rw [hget]
  rw [hr]
  unfold setUrlAt
  rw [get?_set_self2 ⟨bNewName pre pn, src0.url, src0.text⟩ hget]
  simp only [List.set_set]

theorem browser_step (st : ObsState) (pre : String) (pn tw : Json)
    (hpre : pre ≠ "") (hu : uniqueMatch st.sources pre) :
    ∃ i0 src0, st.sources.get? i0 = some src0 ∧
      matchesName src0.name pre = true ∧
      (∀ j s2, st.sources.get? j = some s2 →
        matchesName s2.name pre = true → j = i0) ∧
      (set_browser_source_url st pre pn tw).sources =
        st.sources.set i0 ⟨bNewName pre pn, bNewUrl tw, src0.text⟩ := by
  obtain ⟨i0, src0, hget, hm, huniq, hfind, hidx⟩ := uniqueMatch_elim hu
  exact ⟨i0, src0, hget, hm, huniq,
    set_browser_unique_char st pre pn tw hpre hget hfind hidx⟩

/-- The text update is idempotent on sources once the targeted source
(if any) already shows the text. -/
theorem text_id (st : ObsState) (nm txt : String)
    (h : nm.isEmpty = true ∨
      (∀ j s2, findIdxByName st.sources nm = some j →
        st.sources.get? j = some s2 → s2.text = txt)) :
    (set_text_source st nm txt).sources = st.sources := by
  rcases h with h | h
  · show (set_text_source st nm txt).sources = st.sources
    unfold set_text_source
    rw [if_pos h]
  · rcases set_text_sources_cases st nm txt with ⟨_, hc⟩ | ⟨_, hc⟩ |
      ⟨idx, src, hidx, hget, hnm, hc⟩
    · exact hc
    · exact hc
    · rw [hc]
      have htxt : src.text = txt := h idx src hidx hget
      have h3 : (⟨src.name, src.url, txt⟩ : Source) = src := by
        cases src
        simp only at htxt
        rw [htxt]
      rw [h3]
      exact set_eq_self _ _ _ hget

/-- The browser update is identity on sources once the unique match
already carries the target name and url. -/
theorem browser_id (st : ObsState) (pre : String) (pn tw : Json)
    (hpre : pre ≠ "") (hu : uniqueMatch st.sources pre)
    (hdone : ∀ j s2, st.sources.get? j = some s2 →
      matchesName s2.name pre = true →
      s2.name = bNewName pre pn ∧ s2.url = bNewUrl tw) :
    (set_browser_source_url st pre pn tw).sources = st.sources := by
  obtain ⟨i0, src0, hget, hm, _, heq⟩ := browser_step st pre pn tw hpre hu
  rw [heq]
  obtain ⟨hn, hu2⟩ := hdone i0 src0 hget hm
  have h3 : (⟨bNewName pre pn, bNewUrl tw, src0.text⟩ : Source) = src0 := by
    cases src0
    simp only at hn hu2
    rw [← hn, ← hu2]
  rw [h3]
  exact set_eq_self _ _ _ hget

/-- Facts holding after one browser update with a unique match: its own
match is unique and fully updated; unique matches, update-completeness and
text-completeness for independent names are preserved. -/
theorem browser_post (st : ObsState) (pre : String) (pn tw : Json)
    (hpre : pre ≠ "") (hu : uniqueMatch st.sources pre) :
    uniqueMatch (set_browser_source_url st pre pn tw).sources pre ∧
    (∀ j s2, (set_browser_source_url st pre pn tw).sources.get? j = some s2 →
      matchesName s2.name pre = true →
      s2.name = bNewName pre pn ∧ s2.url = bNewUrl tw) ∧
    (∀ q, incompPre pre q = true → uniqueMatch st.sources q →
      uniqueMatch (set_browser_source_url st pre pn tw).sources q) ∧
    (∀ q pn2 tw2, incompPre pre q = true →
      (∀ j s2, st.sources.get? j = some s2 → matchesName s2.name q = true →
        s2.name = bNewName q pn2 ∧ s2.url = bNewUrl tw2) →
      (∀ j s2, (set_browser_source_url st pre pn tw).sources.get? j = some s2 →
        matchesName s2.name q = true →
        s2.name = bNewName q pn2 ∧ s2.url = bNewUrl tw2)) ∧
    (∀ nm txt, pyStartsWith nm pre = false →
      (∀ j s2, findIdxByName st.sources nm = some j →
        st.sources.get? j = some s2 → s2.text = txt) →
      (∀ j s2, findIdxByName (set_browser_source_url st pre pn tw).sources nm = some j →
        (set_browser_source_url st pre pn tw).sources.get? j = some s2 →
        s2.text = txt)) := by
  obtain ⟨i0, src0, hget, hm, huniq, heq⟩ := browser_step st pre pn tw hpre hu
  have hmnew : matchesName (bNewName pre pn) pre = true := bNewName_matches hpre pn
  refine ⟨?_, ?_, ?_, ?_, ?_⟩
  · unfold uniqueMatch at hu ⊢
    rw [heq, countP_set _ _ _ _ _ hget (hm.trans hmnew.symm)]
    exact hu
  · intro j s2 hget2 hm2
    rw [heq] at hget2
    by_cases hj : j = i0
    · subst hj
      rw [get?_set_self2 _ hget] at hget2
      cases hget2
      exact ⟨rfl, rfl⟩
    · rw [get?_set_ne2 _ _ _ _ hj] at hget2
      exact absurd (huniq j s2 hget2 hm2) hj
  · intro q hinc hq
    unfold uniqueMatch at hq ⊢
    rw [heq, countP_set _ _ _ _ _ hget ?_]
    · exact hq
    · show matchesName src0.name q = matchesName (bNewName pre pn) q
      rw [matchesName_incomp hm hinc, matchesName_incomp hmnew hinc]
  · intro q pn2 tw2 hinc hdone j s2 hget2 hm2
    rw [heq] at hget2
    by_cases hj : j = i0
    · subst hj
      rw [get?_set_self2 _ hget] at hget2
      cases hget2
      rw [matchesName_incomp hmnew hinc] at hm2
      exact Bool.noConfusion hm2
    · rw [get?_set_ne2 _ _ _ _ hj] at hget2
      exact hdone j s2 hget2 hm2
  · intro nm txt hnm hdone j s2 hidx2 hget2
    rw [heq] at hidx2 hget2
    have hsrc0nm : src0.name ≠ nm := by
      intro hc
      rw [matchesName, Bool.and_eq_true] at hm
      rw [hc, hnm] at hm
      exact Bool.noConfusion hm.2
    have hnewnm : (⟨bNewName pre pn, bNewUrl tw, src0.text⟩ : Source).name ≠ nm := by
      intro hc
      rw [matchesName, Bool.and_eq_true] at hmnew
      simp only at hc
      rw [hc, hnm] at hmnew
      exact Bool.noConfusion hmnew.2
    rw [findIdxByName_set_of_ne nm st.sources i0 src0 _ hget hsrc0nm hnewnm] at hidx2
    have hj : j ≠ i0 := by
      intro hc
      subst hc
      obtain ⟨s3, hget3, hname3⟩ := findIdxByName_some hidx2
      rw [hget] at hget3
      cases hget3
      exact hsrc0nm hname3
    rw [get?_set_ne2 _ _ _ _ hj] at hget2
    exact hdone j s2 hidx2 hget2

/-- Facts holding after the team-name text update: unique prefix matches
and browser update-completeness are untouched (names and urls are
preserved), and the targeted text source, if any, now shows the text. -/
theorem text_post (st : ObsState) (nm txt : String) :
    (∀ pre, uniqueMatch st.sources pre →
      uniqueMatch (set_text_source st nm txt).sources pre) ∧
    (∀ q pn2 tw2,
      (∀ j s2, st.sources.get? j = some s2 → matchesName s2.name q = true →
        s2.name = bNewName q pn2 ∧ s2.url = bNewUrl tw2) →
      (∀ j s2, (set_text_source st nm txt).sources.get? j = some s2 →
        matchesName s2.name q = true →
        s2.name = bNewName q pn2 ∧ s2.url = bNewUrl tw2)) ∧
    (nm.isEmpty = true ∨
      (∀ j s2, findIdxByName (set_text_source st nm txt).sources nm = some j →
        (set_text_source st nm txt).sources.get? j = some s2 →
        s2.text = txt)) := by
  rcases set_text_sources_cases st nm txt with ⟨he, hc⟩ | ⟨hnone, hc⟩ |
    ⟨idx, src, hidx, hget, hnm, hc⟩
  · refine ⟨?_, ?_, Or.inl he⟩
    · intro pre h
      rw [uniqueMatch, hc]
      exact h
    · intro q pn2 tw2 hdone j s2 hg hm
      rw [hc] at hg
      exact hdone j s2 hg hm
  · refine ⟨?_, ?_, ?_⟩
    · intro pre h
      rw [uniqueMatch, hc]
      exact h
    · intro q pn2 tw2 hdone j s2 hg hm
      rw [hc] at hg
      exact hdone j s2 hg hm
    · right
      intro j s2 hidx2 _
      rw [hc, hnone] at hidx2
      exact Option.noConfusion hidx2
  · have hname : (⟨src.name, src.url, txt⟩ : Source).name = src.name := rfl
    refine ⟨?_, ?_, ?_⟩
    · intro pre h
      rw [uniqueMatch, hc,
        countP_set (fun (s : Source) => matchesName s.name pre) st.sources idx
          ⟨src.name, src.url, txt⟩ src hget rfl]
      exact h
    · intro q pn2 tw2 hdone j s2 hg hm
      rw [hc] at hg
      by_cases hj : j = idx
      · subst hj
        rw [get?_set_self2 _ hget] at hg
        cases hg
        have hmsrc : matchesName src.name q = true := hm
        obtain ⟨ha, hb⟩ := hdone j src hget hmsrc
        exact ⟨ha, hb⟩
      · rw [get?_set_ne2 _ _ _ _ hj] at hg
        exact hdone j s2 hg hm
    · right
      intro j s2 hidx2 hget2
      rw [hc] at hidx2 hget2
      rw [findIdxByName_set_same_name nm st.sources idx src _ hget hname] at hidx2
      rw [hidx] at hidx2
      have hj : j = idx := by
        cases hidx2
        rfl
      subst hj
      rw [get?_set_self2 _ hget] at hget2
      cases hget2
      rfl

/-- C8: synchronizer updates are idempotent: under the precondition that
exactly one presentation-surface source matches each configured prefix,
that the four prefixes are pairwise independent (so the renamed source
remains the unique match for its own prefix and matches no other), that
the team-name text source does not match a position prefix, and the C9
arity precondition on the team, applying `apply_team_to_sources` twice in
immediate succession leaves the presentation-surface state (source names,
embed urls, team-name text) identical to applying it once. -/
theorem C8_apply_team_idempotent (st : ObsState) (team : Team)
    (ns hp mp fp bp : String)
    (hwf : wfTeamArity team = true)
    (hi1 : incompPre hp mp = true) (hi2 : incompPre hp fp = true)
    (hi3 : incompPre hp bp = true) (hi4 : incompPre mp fp = true)
    (hi5 : incompPre mp bp = true) (hi6 : incompPre fp bp = true)
    (hn1 : pyStartsWith ns hp = false) (hn2 : pyStartsWith ns mp = false)
    (hn3 : pyStartsWith ns fp = false) (hn4 : pyStartsWith ns bp = false)
    (hu1 : uniqueMatch st.sources hp) (hu2 : uniqueMatch st.sources mp)
    (hu3 : uniqueMatch st.sources fp) (hu4 : uniqueMatch st.sources bp) :
    ∃ st1 st2,
      apply_team_to_sources st team ns hp mp fp bp = .ok st1 ∧
      apply_team_to_sources st1 team ns hp mp fp bp = .ok st2 ∧
      st2.sources = st1.sources := by
  obtain ⟨ph, th, pm, tm, pf, tf, pb, tb, e1, e2, e3, e4, e5, e6, e7, e8,
    happ0⟩ := apply_team_ok st team ns hp mp fp bp hwf
  have happly : ∀ s : ObsState, apply_team_to_sources s team ns hp mp fp bp =
      .ok (set_browser_source_url (set_browser_source_url
        (set_browser_source_url (set_browser_source_url
          (set_text_source s ns team.name) hp ph th) mp pm tm) fp pf tf)
        bp pb tb) := by
    intro s
    unfold apply_team_to_sources
    rw [e1, e2, e3, e4, e5, e6, e7, e8]
    simp
  have hpne : hp ≠ "" := (incompPre_ne_empty hi1).1
  have hmne : mp ≠ "" := (incompPre_ne_empty hi1).2
  have hfne : fp ≠ "" := (incompPre_ne_empty hi2).2
  have hbne : bp ≠ "" := (incompPre_ne_empty hi3).2
  set A := set_text_source st ns team.name with hA
  set B := set_browser_source_url A hp ph th with hB
  set C := set_browser_source_url B mp pm tm with hC
  set D := set_browser_source_url C fp pf tf with hD
  set E := set_browser_source_url D bp pb tb with hE
  obtain ⟨ta1, ta2, ta3⟩ := text_post st ns team.name
  have uA_h : uniqueMatch A.sources hp := ta1 hp hu1
  have uA_m : uniqueMatch A.sources mp := ta1 mp hu2
  have uA_f : uniqueMatch A.sources fp := ta1 fp hu3
  have uA_b : uniqueMatch A.sources bp := ta1 bp hu4
  obtain ⟨b1, b2, b3, b4, b5⟩ := browser_post A hp ph th hpne uA_h
  have uB_m : uniqueMatch B.sources mp := b3 mp hi1 uA_m
  have uB_f : uniqueMatch B.sources fp := b3 fp hi2 uA_f
  have uB_b : uniqueMatch B.sources bp := b3 bp hi3 uA_b
  have condB : ns.isEmpty = true ∨
      (∀ j s2, findIdxByName B.sources ns = some j →
        B.sources.get? j = some s2 → s2.text = team.name) := by
    rcases ta3 with h | h
    · exact Or.inl h
    · exact Or.inr (b5 ns team.name hn1 h)
  obtain ⟨c1, c2, c3, c4, c5⟩ := browser_post B mp pm tm hmne uB_m
  have uC_h : uniqueMatch C.sources hp := c3 hp (incompPre_symm hi1) b1
  have uC_f : uniqueMatch C.sources fp := c3 fp hi4 uB_f
  have uC_b : uniqueMatch C.sources bp := c3 bp hi5 uB_b
  have doneC_h := c4 hp ph th (incompPre_symm hi1) b2
  have condC : ns.isEmpty = true ∨
      (∀ j s2, findIdxByName C.sources ns = some j →
        C.sources.get? j = some s2 → s2.text = team.name) := by
    rcases condB with h | h
    · exact Or.inl h
    · exact Or.inr (c5 ns team.name hn2 h)
  obtain ⟨d1, d2, d3, d4, d5⟩ := browser_post C fp pf tf hfne uC_f
  have uD_h : uniqueMatch D.sources hp := d3 hp (incompPre_symm hi2) uC_h
  have uD_m : uniqueMatch D.sources mp := d3 mp (incompPre_symm hi4) c1
  have uD_b : uniqueMatch D.sources bp := d3 bp hi6 uC_b
  have doneD_h := d4 hp ph th (incompPre_symm hi2) doneC_h
  have doneD_m := d4 mp pm tm (incompPre_symm hi4) c2
  have condD : ns.isEmpty = true ∨
      (∀ j s2, findIdxByName D.sources ns = some j →
        D.sources.get? j = some s2 → s2.text = team.name) := by
    rcases condC with h | h
    · exact Or.inl h
    · exact Or.inr (d5 ns team.name hn3 h)
  obtain ⟨f1, f2, f3, f4, f5⟩ := browser_post D bp pb tb hbne uD_b
  have uE_h : uniqueMatch E.sources hp := f3 hp (incompPre_symm hi3) uD_h
  have uE_m : uniqueMatch E.sources mp := f3 mp (incompPre_symm hi5) uD_m
  have uE_f : uniqueMatch E.sources fp := f3 fp (incompPre_symm hi6) d1
  have doneE_h := f4 hp ph th (incompPre_symm hi3) doneD_h
  have doneE_m := f4 mp pm tm (incompPre_symm hi5) doneD_m
  have doneE_f := f4 fp pf tf (incompPre_symm hi6) d2
  have condE : ns.isEmpty = true ∨
      (∀ j s2, findIdxByName E.sources ns = some j →
        E.sources.get? j = some s2 → s2.text = team.name) := by
    rcases condD with h | h
    · exact Or.inl h
    · exact Or.inr (f5 ns team.name hn4 h)
  refine ⟨E, _, happly st, happly E, ?_⟩
  have q1 : (set_text_source E ns team.name).sources = E.sources :=
    text_id E ns team.name condE
  have q2 : (set_browser_source_url (set_text_source E ns team.name)
      hp ph th).sources = (set_text_source E ns team.name).sources := by
    apply browser_id _ _ _ _ hpne
    · rw [uniqueMatch, q1]
      exact uE_h
    · intro j s2 hg hm
      rw [q1] at hg
      exact doneE_h j s2 hg hm
  have q3 : (set_browser_source_url (set_browser_source_url
      (set_text_source E ns team.name) hp ph th) mp pm tm).sources =
      (set_browser_source_url (set_text_source E ns team.name)
        hp ph th).sources := by
    apply browser_id _ _ _ _ hmne
    · rw [uniqueMatch, q2, q1]
      exact uE_m
    · intro j s2 hg hm
      rw [q2, q1] at hg
      exact doneE_m j s2 hg hm
  have q4 : (set_browser_source_url (set_browser_source_url
      (set_browser_source_url (set_text_source E ns team.name) hp ph th)
      mp pm tm) fp pf tf).sources =
      (set_browser_source_url (set_browser_source_url
        (set_text_source E ns team.name) hp ph th) mp pm tm).sources := by
    apply browser_id _ _ _ _ hfne
    · rw [uniqueMatch, q3, q2, q1]
      exact uE_f
    · intro j s2 hg hm
      rw [q3, q2, q1] at hg
      exact doneE_f j s2 hg hm
  have q5 : (set_browser_source_url (set_browser_source_url
      (set_browser_source_url (set_browser_source_url
        (set_text_source E ns team.name) hp ph th) mp pm tm) fp pf tf)
      bp pb tb).sources =
      (set_browser_source_url (set_browser_source_url
        (set_browser_source_url (set_text_source E ns team.name) hp ph th)
        mp pm tm) fp pf tf).sources := by
    apply browser_id _ _ _ _ hbne
    · rw [uniqueMatch, q4, q3, q2, q1]
      exact f1
    · intro j s2 hg hm
      rw [q4, q3, q2, q1] at hg
      exact f2 j s2 hg hm
  calc (set_browser_source_url (set_browser_source_url
      (set_browser_source_url (set_browser_source_url
        (set_text_source E ns team.name) hp ph th) mp pm tm) fp pf tf)
      bp pb tb).sources
      = _ := q5
    _ = _ := q4
    _ = _ := q3
    _ = _ := q2
    _ = E.sources := q1

/-- Witness for C8 with the real side-1 configuration and a concrete scene
containing exactly one match per prefix. -/
theorem C8_apply_team_idempotent_witness :
    ∃ st1 st2,
      apply_team_to_sources
        (⟨[⟨"Team 1", "", ""⟩, ⟨"T1H - old", "u", ""⟩, ⟨"T1MC -", "", ""⟩,
          ⟨"T1F -", "", ""⟩, ⟨"T1B -", "", ""⟩], []⟩ : ObsState)
        (⟨"Alpha", some [Json.str "X", Json.str "x1"], none, none, none⟩ : Team)
        T1_NAME_SOURCE T1_HELM_PRE T1_MC_PRE T1_FLEX_PRE T1_BILGE_PRE = .ok st1 ∧
      apply_team_to_sources st1
        (⟨"Alpha", some [Json.str "X", Json.str "x1"], none, none, none⟩ : Team)
        T1_NAME_SOURCE T1_HELM_PRE T1_MC_PRE T1_FLEX_PRE T1_BILGE_PRE = .ok st2 ∧
      st2.sources = st1.sources :=
  C8_apply_team_idempotent
    (⟨[⟨"Team 1", "", ""⟩, ⟨"T1H - old", "u", ""⟩, ⟨"T1MC -", "", ""⟩,
      ⟨"T1F -", "", ""⟩, ⟨"T1B -", "", ""⟩], []⟩ : ObsState)
    (⟨"Alpha", some [Json.str "X", Json.str "x1"], none, none, none⟩ : Team)
    T1_NAME_SOURCE T1_HELM_PRE T1_MC_PRE T1_FLEX_PRE T1_BILGE_PRE
    (by decide) (by decide) (by decide) (by decide) (by decide) (by decide)
    (by decide) (by decide) (by decide) (by decide) (by decide)
    (by unfold uniqueMatch; decide) (by unfold uniqueMatch; decide)
    (by unfold uniqueMatch; decide) (by unfold uniqueMatch; decide)

end GgObs
